import Mathlib

/-!
Verification of the `exp_viz` filter/merge core (ReddyLab/exp_viz).

The Rust sources embedded here are `src/filter.rs`, `src/merge.rs` and
`src/filter_data_structures.rs`.  Machine floats (`f32`/`f64`) are modelled by
`EFloat`: rational numbers extended with `⊥` (`-∞`) and `⊤` (`+∞`); NaN inputs
are outside the model.  Fallible code (Rust panics: out-of-bounds indexing,
`Option::unwrap`, division by zero) is modelled with `Option`, `none` standing
for a panic.  Hash-set/hash-map iteration orders, which Rust leaves
unspecified, are modelled by a fixed deterministic order; no claim below
depends on those orders beyond membership.
-/

namespace ExpViz

/-- Machine floating-point values without NaN: a rational, or one of the two
infinities.  `⊥` plays `-∞` (`f32::NEG_INFINITY`), `⊤` plays `+∞`
(`f32::INFINITY`). -/
abbrev EFloat : Type := WithBot (WithTop ℚ)

/-- Embed a finite rational as an `EFloat`. -/
def efFin (q : ℚ) : EFloat := ((q : WithTop ℚ) : EFloat)

/-- Negation on `EFloat`, as IEEE negation acts on non-NaN floats. -/
def efNeg (s : EFloat) : EFloat :=
  WithBot.recBotCoe ⊤ (fun t => WithTop.recTopCoe ⊥ (fun q => efFin (-q)) t) s

/-- Absolute value on `EFloat` (IEEE `abs` on non-NaN floats). -/
def efAbs (s : EFloat) : EFloat := max s (efNeg s)

/-- Exact value of `f32::MIN`, the least finite `f32`. -/
def f32MIN : EFloat := efFin (-((2 : ℚ) ^ 128 - 2 ^ 104))

/-- Exact value of `f32::MAX`, the greatest finite `f32`. -/
def f32MAX : EFloat := efFin ((2 : ℚ) ^ 128 - 2 ^ 104)

/-- Exact value of `f64::MAX`, the greatest finite `f64`. -/
def f64MAX : EFloat := efFin ((2 : ℚ) ^ 1024 - 2 ^ 971)

/-- Exact value of `f64::MIN`, the least finite `f64`. -/
def f64MIN : EFloat := efFin (-((2 : ℚ) ^ 1024 - 2 ^ 971))

/-- Semantics of the Rust expression `-significance.log10()`: `+∞` at zero
(IEEE `log10(0) = -∞`), `-∞` at `+∞`, and otherwise `-log10 q`, with the
transcendental `log10` on positive rationals supplied as the parameter `lg`
(its values at non-positive arguments are irrelevant junk; IEEE would give
NaN there, which is outside this model). -/
def neglog10 (lg : ℚ → ℚ) (s : EFloat) : EFloat :=
  WithBot.recBotCoe ⊥
    (fun t => WithTop.recTopCoe ⊥ (fun q => if q = 0 then ⊤ else efFin (-(lg q))) t) s

/-! ## Catalog data model

These mirror the `cov_viz_ds` catalog types exactly as they are consumed by
`filter.rs` (ids are `DbID = u64`, modelled as `ℕ`; bucket coordinates are
`u8`/`u32`, modelled as `ℕ`). -/

/-- A bucket location: `BucketLoc { chrom: u8, idx: u32 }`. -/
structure BucketLoc where
  chrom : ℕ
  idx : ℕ
deriving DecidableEq, Repr

/-- One regulatory-effect observation attached to a feature: `reo_id`,
categorical facet-value ids, effect size (`f32`) and raw significance
(`f64`). -/
structure ObservationData where
  reo_id : ℕ
  facet_ids : List ℕ
  effect_size : EFloat
  significance : EFloat
deriving DecidableEq, Repr

/-- A genomic feature inside a catalog interval: its id, its observations
(field `facets` in the source) and the bucket locations of the opposite-role
features it connects to. -/
structure FeatureData where
  id : ℕ
  facets : List ObservationData
  associated_buckets : List BucketLoc
deriving DecidableEq, Repr

/-- One catalog interval: a start coordinate and the features located in it. -/
structure IntervalData where
  start : ℕ
  values : List FeatureData
deriving DecidableEq, Repr

/-- Facet role coverage as in `cov_viz_ds::FacetCoverage`. -/
inductive FacetCoverage where
  | Source : FacetCoverage
  | Target : FacetCoverage
deriving DecidableEq, BEq, Repr

/-- A facet definition: name, kind string, optional categorical value ids
(the keys of the Rust value map), optional numeric range, optional coverage. -/
structure FacetData where
  name : String
  facet_type : String
  values : Option (List ℕ)
  range : Option (EFloat × EFloat)
  coverage : Option (List FacetCoverage)
deriving DecidableEq, Repr

/-- Per-chromosome catalog data (name, index, bucket size, the two interval
sequences). -/
structure ChromosomeData where
  chrom : String
  index : ℕ
  bucket_size : ℕ
  source_intervals : List IntervalData
  target_intervals : List IntervalData
deriving DecidableEq, Repr

/-- The immutable catalog (`cov_viz_ds::CoverageData`) as consumed by
`filter.rs`. -/
structure CoverageData where
  facets : List FacetData
  chromosomes : List ChromosomeData
  chrom_lengths : List ℕ
  bucket_size : ℕ
deriving DecidableEq, Repr

/-! ## Filter-side data structures (`filter_data_structures.rs`) -/

/-- The `MIN_SIG` constant of `filter_data_structures.rs` (`1e-100`), declared
as the significance floor but, as claim C10 records, never used. -/
def MIN_SIG : EFloat := efFin (1 / 10 ^ 100)

/-- Numeric filter intervals: closed ranges for effect size and for the
(-log10-transformed) significance. -/
structure FilterIntervals where
  effect : EFloat × EFloat
  sig : EFloat × EFloat
deriving DecidableEq, Repr

/-- A user filter: optional chromosome restriction, requested categorical
facet-value ids (a hash set in Rust, a `Finset` here), optional numeric
intervals. -/
structure Filter where
  chrom : Option ℕ
  categorical_facets : Finset ℕ
  numeric_intervals : Option FilterIntervals

/-- One output bucket (`FilteredBucket`). -/
structure FilteredBucket where
  start : ℕ
  count : ℕ
  associated_buckets : List ℕ
  max_log10_sig : EFloat
  max_abs_effect : EFloat
deriving DecidableEq, Repr

/-- One output chromosome (`FilteredChromosome`). -/
structure FilteredChromosome where
  chrom : String
  index : ℕ
  bucket_size : ℕ
  target_intervals : List FilteredBucket
  source_intervals : List FilteredBucket
deriving DecidableEq, Repr

/-- The merged-result data structure as defined in
`filter_data_structures.rs` and consumed by `merge.rs` (`RoaringTreemap`
id sets modelled as `Finset ℕ`). -/
structure FilteredData where
  chromosomes : List FilteredChromosome
  bucket_size : ℕ
  numeric_intervals : FilterIntervals
  reo_count : ℕ
  sources : Finset ℕ
  targets : Finset ℕ
deriving DecidableEq

/-- The record literal actually constructed by `filter_coverage_data` in
`filter.rs` (this snapshot of `filter.rs` builds `chromosomes`,
`numeric_intervals` and an `item_counts: [u64; 3]` array, in that order:
distinct reo ids, distinct source ids, distinct target ids). -/
structure FilteredDataIC where
  chromosomes : List FilteredChromosome
  numeric_intervals : FilterIntervals
  item_counts : ℕ × ℕ × ℕ
deriving DecidableEq, Repr

/-! ## Merge (`merge.rs`) -/

/-- Combination of two equal-start buckets in `merge_chromosomes`: the first
argument is the running accumulator (`new_chromosome`), the second the
incoming result (`filtered_chrom`).  Field by field as in the Rust source:
count summed with the incoming operand first, associated bucket lists
concatenated incoming-first, significance maximum, and the effect of larger
absolute value with ties resolved to the accumulator. -/
def combineBucket (acc inc : FilteredBucket) : FilteredBucket :=
  { start := inc.start
    count := inc.count + acc.count
    associated_buckets := inc.associated_buckets ++ acc.associated_buckets
    max_log10_sig := max inc.max_log10_sig acc.max_log10_sig
    max_abs_effect :=
      if efAbs inc.max_abs_effect > efAbs acc.max_abs_effect then inc.max_abs_effect
      else acc.max_abs_effect }

/-- Helper for `merge_intervals`: walks the incoming sequence while the
accumulator's current bucket is `i`; `mergeRest` merges the accumulator's
tail against a remaining incoming sequence.  (This nested-structural
formulation is definitionally equal to the Rust `i`/`j` loop; the loop's
step equations are proved as `merge_intervals_nil_left`,
`merge_intervals_nil_right`, `merge_intervals_cons_lt`,
`merge_intervals_cons_gt` and `merge_intervals_cons_eq` below.) -/
def mergeGo (i : FilteredBucket) (is_ : List FilteredBucket)
    (mergeRest : List FilteredBucket → List FilteredBucket) :
    List FilteredBucket → List FilteredBucket
  | [] => i :: is_
  | j :: js =>
    if i.start < j.start then i :: mergeRest (j :: js)
    else if j.start < i.start then j :: mergeGo i is_ mergeRest js
    else combineBucket i j :: mergeRest js

/-- The linear merge-join loop of `merge_chromosomes` over one role's interval
sequence: first argument is the accumulator's sequence (indexed by `i`),
second the incoming sequence (indexed by `j`): advance the lower start,
combine on equal starts, flush the survivor when either side runs out. -/
def merge_intervals : List FilteredBucket → List FilteredBucket → List FilteredBucket
  | [], js => js
  | i :: is_, js => mergeGo i is_ (merge_intervals is_) js

/-- Merging one incoming chromosome into the accumulator chromosome: the
accumulator keeps its name, index and bucket size, and both interval
sequences are merge-joined. -/
def mergeChromPair (acc inc : FilteredChromosome) : FilteredChromosome :=
  { acc with
    source_intervals := merge_intervals acc.source_intervals inc.source_intervals
    target_intervals := merge_intervals acc.target_intervals inc.target_intervals }

/-- The body of the `for filtered_data in result_data` loop of
`merge_chromosomes` for one chromosome name: find the first chromosome of the
input with the right name (the inner loop's `continue`/`break` discipline);
if the name is not yet covered take it as the accumulator and mark the name
covered, otherwise merge it into the accumulator. -/
def mergeStepData (name : String) (st : FilteredChromosome × List String)
    (fd : FilteredData) : FilteredChromosome × List String :=
  match fd.chromosomes.find? (fun c => c.chrom = name) with
  | none => st
  | some fc =>
    if fc.chrom ∈ st.2 then (mergeChromPair st.1 fc, st.2)
    else (fc, fc.chrom :: st.2)

/-- Default accumulator chromosome for one name ("should never ever be used"
per the source comment): index 0, bucket size 0, empty interval lists. -/
def defaultChrom (name : String) : FilteredChromosome :=
  { chrom := name, index := 0, bucket_size := 0
    target_intervals := [], source_intervals := [] }

/-- Processing of one chromosome name in `merge_chromosomes`: fold the step
over all input results, threading the covered-name set. -/
def mergeChromName (result_data : List FilteredData) (covered : List String)
    (name : String) : FilteredChromosome × List String :=
  result_data.foldl (mergeStepData name) (defaultChrom name, covered)

/-- The outer `for chrom in chromosomes` loop of `merge_chromosomes`,
threading the covered-name set across names exactly as the Rust code does. -/
def mergeChromosomesLoop (result_data : List FilteredData) :
    List String → List String → List FilteredChromosome
  | [], _ => []
  | n :: rest, covered =>
    let st := mergeChromName result_data covered n
    st.1 :: mergeChromosomesLoop result_data rest st.2

/-- Embedding of `merge_chromosomes`: empty input gives an empty list, a
single input is returned unchanged, otherwise the per-name merge loop runs. -/
def merge_chromosomes (result_data : List FilteredData)
    (chromosomes : List String) : List FilteredChromosome :=
  match result_data with
  | [] => []
  | [d] => d.chromosomes
  | _ => mergeChromosomesLoop result_data chromosomes []

/-- One step of the numeric-interval fold of `merge_filtered_data`
(elementwise min/max). -/
def mergeIntervalsStep (acc : FilterIntervals) (d : FilterIntervals) : FilterIntervals :=
  { effect := (min acc.effect.1 d.effect.1, max acc.effect.2 d.effect.2)
    sig := (min acc.sig.1 d.sig.1, max acc.sig.2 d.sig.2) }

/-- Embedding of `merge_filtered_data`.  The Rust function indexes
`result_data[0]` unconditionally, so an empty input vector panics: `none`. -/
def merge_filtered_data (result_data : List FilteredData)
    (chromosome_list : List String) : Option FilteredData :=
  match result_data with
  | [] => none
  | d0 :: _ =>
    some
      { chromosomes := merge_chromosomes result_data chromosome_list
        bucket_size := d0.bucket_size
        numeric_intervals :=
          (result_data.map (fun d => d.numeric_intervals)).foldl mergeIntervalsStep
            { effect := (f32MAX, f32MIN), sig := (f64MAX, f64MIN) }
        reo_count := (result_data.map (fun d => d.reo_count)).sum
        sources := result_data.foldl (fun acc f => acc ∪ f.sources) ∅
        targets := result_data.foldl (fun acc f => acc ∪ f.targets) ∅ }

/-! ## BucketList (`filter_data_structures.rs`)

`BucketList` wraps an `FxHashMap<u8, Vec<u32>>`; the map is modelled as an
association list in chromosome-info order (key iteration order of the Rust
hash map is unspecified; keys coming from `BucketList::new` are the catalog's
chromosome indices, assumed distinct as they are in any real catalog). -/

/-- The bucket-presence map: one 0/1 vector per chromosome index. -/
structure BucketList where
  buckets : List (ℕ × List ℕ)
deriving DecidableEq, Repr

/-- Embedding of `BucketList::new`: one vector of `length / bucket_size + 1`
zeros per `(chromosome, length)` pair.  The caller guards `bucket_size ≠ 0`
(a zero bucket size makes the Rust `usize` division panic). -/
def BucketList.new (chrom_info : List (ChromosomeData × ℕ)) (bucket_size : ℕ) :
    BucketList :=
  ⟨chrom_info.map (fun c => (c.1.index, List.replicate (c.2 / bucket_size + 1) 0))⟩

/-- Embedding of `BucketList::insert`: a missing chromosome key is silently
skipped (`None => ()`), but for a present key the write `v[bucket] = 1`
panics when `bucket` is out of range — modelled as `none`. -/
def BucketList.insert (bl : BucketList) (chrom bucket : ℕ) : Option BucketList :=
  match bl.buckets.find? (fun p => p.1 = chrom) with
  | none => some bl
  | some p =>
    if bucket < p.2.length then
      some ⟨bl.buckets.map (fun q => if q.1 = chrom then (q.1, q.2.set bucket 1) else q)⟩
    else none

/-- Embedding of `BucketList::insert_from`: insert every location in order,
propagating a panic. -/
def BucketList.insert_from (bl : BucketList) (locs : List BucketLoc) :
    Option BucketList :=
  locs.foldlM (fun b loc => b.insert loc.chrom loc.idx) bl

/-- Embedding of `BucketList::flat_list`: for every chromosome entry and every
marked bucket, append the `(chromosome, bucket)` pair to the flat list. -/
def BucketList.flat_list (bl : BucketList) : List ℕ :=
  (bl.buckets.map (fun p =>
    ((p.2.enum.filter (fun jb => jb.2 = 1)).map (fun jb => [p.1, jb.1])).flatten)).flatten

/-! ## Filter pipeline (`filter.rs`) -/

/-- Embedding of the free function `is_disjoint` of `filter.rs`: two id lists
are disjoint when no pair of elements is equal. -/
def is_disjoint (a b : List ℕ) : Bool :=
  a.all (fun va => b.all (fun vb => va ≠ vb))

/-- Disjointness of an observation's facet-id list from a selected facet set
(the Rust code materialises the set as a `Vec` and calls `is_disjoint`;
disjointness does not depend on the order of that `Vec`). -/
def isDisjointSel (a : List ℕ) (sf : Finset ℕ) : Bool :=
  a.all (fun v => v ∉ sf)

/-- All categorical facet-value ids present anywhere in the catalog
(`coverage_data_disc_facets` before the intersection, lines 24-32). -/
def presentFacetIds (data : CoverageData) : Finset ℕ :=
  data.facets.foldl
    (fun acc f => match f.values with
      | some vs => acc ∪ vs.toFinset
      | none => acc) ∅

/-- The intersection of the present categorical facet-value ids with the
requested set (`coverage_data_disc_facets` after line 34). -/
def discFacets (filters : Filter) (data : CoverageData) : Finset ℕ :=
  presentFacetIds data ∩ filters.categorical_facets

/-- Embedding of lines 42-61: the effect-size interval is the requested one,
or else the facet-declared range of the facet named "Effect Size"; a missing
facet or range is an `unwrap` panic, hence `none`. -/
def effect_size_interval (filters : Filter) (data : CoverageData) :
    Option (EFloat × EFloat) :=
  match filters.numeric_intervals with
  | some c => some c.effect
  | none => (data.facets.find? (fun f => f.name = "Effect Size")).bind (fun f => f.range)

/-- The significance interval, from the filter or the "Significance" facet. -/
def sig_interval (filters : Filter) (data : CoverageData) :
    Option (EFloat × EFloat) :=
  match filters.numeric_intervals with
  | some c => some c.sig
  | none => (data.facets.find? (fun f => f.name = "Significance")).bind (fun f => f.range)

/-- Embedding of the `source_facets`/`target_facets` loops (lines 63-87): the
value-id sets of the categorical facets covering the given role.  The Rust
closure unwraps `coverage` for every categorical facet and `values` for every
kept facet, so either being `None` is a panic. -/
def roleFacets (cov : FacetCoverage) (data : CoverageData) :
    Option (List (Finset ℕ)) :=
  (data.facets.mapM (fun f =>
    if f.facet_type = "FacetType.CATEGORICAL" then
      match f.coverage with
      | none => none
      | some cvg =>
        if cvg.contains cov then
          match f.values with
          | none => none
          | some vs => some (some vs.toFinset)
        else some none
    else some none)).map List.reduceOption

/-- The facets of one role having a selected value
(`sf_with_selections` / `tf_with_selections`, lines 89-96). -/
def facetsWithSelections (fl : List (Finset ℕ)) (disc : Finset ℕ) :
    List (Finset ℕ) :=
  fl.filter (fun f => !decide (f ∩ disc = ∅))

/-- The selected subset of each active facet (`selected_sf` / `selected_tf`,
lines 98-105). -/
def selectedFacets (fl : List (Finset ℕ)) (disc : Finset ℕ) : List (Finset ℕ) :=
  (facetsWithSelections fl disc).map (fun f => f ∩ disc)

/-- The categorical test applied to one observation (lines 198-202 for the
source role, 298-302 for the target role): skip entirely, or require the
observation's facet ids to meet every active facet's selected subset. -/
def catPass (skipDisc : Bool) (selected : List (Finset ℕ))
    (o : ObservationData) : Bool :=
  skipDisc || selected.all (fun sf => ! (isDisjointSel o.facet_ids sf))

/-- The transformed significance of one observation (`obs_sig`). -/
def obsSig (lg : ℚ → ℚ) (o : ObservationData) : EFloat :=
  neglog10 lg o.significance

/-- The numeric test applied to one observation (lines 209-213): skip, or
require effect size and transformed significance inside their closed
intervals. -/
def numPass (skipCont : Bool) (esI sigI : EFloat × EFloat) (lg : ℚ → ℚ)
    (o : ObservationData) : Bool :=
  skipCont ||
    (decide (esI.1 ≤ o.effect_size) && decide (o.effect_size ≤ esI.2) &&
     decide (sigI.1 ≤ obsSig lg o) && decide (obsSig lg o ≤ sigI.2))

/-- The running combine of `max_interval_effect` (keep the current value when
its absolute value is strictly larger, else take the observation's). -/
def maxAbsCombine (acc e : EFloat) : EFloat :=
  if efAbs acc > efAbs e then acc else e

/-- State of the per-interval feature loop on the filtering path: included
feature count, the opposite-role bucket list, and the running interval
maxima. -/
structure IntervalAcc where
  count : ℕ
  bl : BucketList
  maxSig : EFloat
  maxEff : EFloat
deriving Repr

/-- One feature of one interval on the filtering path (lines 195-235): the
observations passing both tests update the interval maxima; if any passed,
the feature counts and its associated buckets are inserted (which can
panic). -/
def stepFeature (catP numP : ObservationData → Bool) (lg : ℚ → ℚ)
    (acc : IntervalAcc) (f : FeatureData) : Option IntervalAcc :=
  let included := f.facets.filter (fun o => catP o && numP o)
  if included.isEmpty then some acc
  else
    (acc.bl.insert_from f.associated_buckets).map (fun bl2 =>
      { count := acc.count + 1
        bl := bl2
        maxSig := included.foldl (fun m o => max m (obsSig lg o)) acc.maxSig
        maxEff := included.foldl (fun m o => maxAbsCombine m o.effect_size) acc.maxEff })

/-- One interval on the filtering path: fold the features, then emit a bucket
exactly when the included-feature count is positive (lines 237-245). -/
def processInterval (catP numP : ObservationData → Bool) (lg : ℚ → ℚ)
    (bl0 : BucketList) (iv : IntervalData) : Option (Option FilteredBucket) :=
  (iv.values.foldlM (stepFeature catP numP lg)
      { count := 0, bl := bl0, maxSig := f32MIN, maxEff := efFin 0 }).map
    (fun acc =>
      if acc.count = 0 then none
      else some
        { start := iv.start
          count := acc.count
          associated_buckets := acc.bl.flat_list
          max_log10_sig := acc.maxSig
          max_abs_effect := acc.maxEff })

/-- One interval on the no-filtering fast path (lines 151-185): every feature
counts, associated buckets are deduplicated through a hash set (modelled by
`List.dedup`) and flattened, and the maxima range over every observation. -/
def fastBucket (lg : ℚ → ℚ) (iv : IntervalData) : FilteredBucket :=
  let allObs := (iv.values.map (fun f => f.facets)).flatten
  { start := iv.start
    count := iv.values.length
    associated_buckets :=
      (((iv.values.map (fun f => f.associated_buckets)).flatten).dedup.map
        (fun b => [b.chrom, b.idx])).flatten
    max_log10_sig := allObs.foldl (fun m o => max m (obsSig lg o)) f32MIN
    max_abs_effect := allObs.foldl (fun m o => maxAbsCombine m o.effect_size) (efFin 0) }

/-- One role's interval sequence for one chromosome: the fast path when the
numeric check is skipped and the role has no active facet, else the filtering
path (panics propagate). -/
def roleIntervals (fast : Bool) (catP numP : ObservationData → Bool)
    (lg : ℚ → ℚ) (bl0 : BucketList) (ivs : List IntervalData) :
    Option (List FilteredBucket) :=
  if fast then some (ivs.map (fastBucket lg))
  else (ivs.mapM (processInterval catP numP lg bl0)).map List.reduceOption

/-- The per-chromosome output of `filter_coverage_data` (lines 139-353,
bucket-building part).  A zero per-chromosome bucket size makes
`BucketList::new` panic (division by zero), hence the guard. -/
def chromResult (srcFast tgtFast : Bool) (catS catT numP : ObservationData → Bool)
    (lg : ℚ → ℚ) (data : CoverageData) (chromosome : ChromosomeData) :
    Option FilteredChromosome :=
  if chromosome.bucket_size = 0 then none
  else
    let bl0 := BucketList.new (data.chromosomes.zip data.chrom_lengths)
      chromosome.bucket_size
    (roleIntervals srcFast catS numP lg bl0 chromosome.source_intervals).bind
      (fun src =>
        (roleIntervals tgtFast catT numP lg bl0 chromosome.target_intervals).map
          (fun tgt =>
            { chrom := chromosome.chrom
              index := chromosome.index
              bucket_size := chromosome.bucket_size
              target_intervals := tgt
              source_intervals := src }))

/-- The observations of one role of one chromosome that pass the categorical
test, in program order; empty when that role runs the fast path (on which the
extrema variables are never touched). -/
def roleCatObs (fast : Bool) (catP : ObservationData → Bool)
    (ivs : List IntervalData) : List ObservationData :=
  if fast then []
  else ((ivs.map (fun iv =>
    (iv.values.map (fun f => f.facets.filter catP)).flatten)).flatten)

/-- The categorical-test-passing observations of one chromosome, source role
first then target role, matching the statement order of the two loops. -/
def chromCatObs (srcFast tgtFast : Bool) (catS catT : ObservationData → Bool)
    (ch : ChromosomeData) : List ObservationData :=
  roleCatObs srcFast catS ch.source_intervals ++
    roleCatObs tgtFast catT ch.target_intervals

/-- Per-chromosome running extrema (lines 133-137 and 203-207/303-307):
min/max effect size and min/max transformed significance over the
categorical-test-passing observations, from the `±∞` sentinels. -/
def chromExtrema (lg : ℚ → ℚ) (obs : List ObservationData) :
    EFloat × EFloat × EFloat × EFloat :=
  (obs.foldl (fun m o => min o.effect_size m) ⊤,
   obs.foldl (fun m o => max o.effect_size m) ⊥,
   obs.foldl (fun m o => min (obsSig lg o) m) ⊤,
   obs.foldl (fun m o => max (obsSig lg o) m) ⊥)

/-- The distinct-id sets of one role of one chromosome: on the fast path every
feature id and every reo id; on the filtering path the ids of features with an
included observation and the reo ids of included observations. -/
def roleIds (fast : Bool) (catP numP : ObservationData → Bool)
    (ivs : List IntervalData) : Finset ℕ × Finset ℕ :=
  if fast then
    (((ivs.map (fun iv => iv.values.map (fun f => f.id))).flatten).toFinset,
     ((ivs.map (fun iv =>
        (iv.values.map (fun f => f.facets.map (fun o => o.reo_id))).flatten)).flatten).toFinset)
  else
    (((ivs.map (fun iv =>
        (iv.values.filter (fun f =>
          !(f.facets.filter (fun o => catP o && numP o)).isEmpty)).map
          (fun f => f.id))).flatten).toFinset,
     ((ivs.map (fun iv =>
        (iv.values.map (fun f =>
          (f.facets.filter (fun o => catP o && numP o)).map
            (fun o => o.reo_id))).flatten)).flatten).toFinset)

/-- The `skip_disc_facet_check` flag (line 39). -/
def skipDiscOf (filters : Filter) (data : CoverageData) : Bool :=
  decide (discFacets filters data = ∅)

/-- The `skip_cont_facet_check` flag (line 40). -/
def skipContOf (filters : Filter) : Bool :=
  filters.numeric_intervals.isNone

/-- The categorical test for one role, assembled from the filter, catalog and
that role's categorical facet value sets. -/
def catPassOf (filters : Filter) (data : CoverageData) (fl : List (Finset ℕ)) :
    ObservationData → Bool :=
  catPass (skipDiscOf filters data) (selectedFacets fl (discFacets filters data))

/-- Whether one role runs the no-filtering fast path (lines 149 and 249): the
numeric check is skipped and the role has no facet with selections. -/
def roleFastOf (filters : Filter) (data : CoverageData) (fl : List (Finset ℕ)) :
    Bool :=
  skipContOf filters && (facetsWithSelections fl (discFacets filters data)).isEmpty

/-- The per-chromosome extrema of the whole run, folded over the chromosomes
in order from the `±∞` sentinels (lines 357-368). -/
def globalExtrema (lg : ℚ → ℚ) (filters : Filter) (data : CoverageData)
    (sfAll tfAll : List (Finset ℕ)) : EFloat × EFloat × EFloat × EFloat :=
  let exts := data.chromosomes.map (fun ch =>
    chromExtrema lg (chromCatObs (roleFastOf filters data sfAll)
      (roleFastOf filters data tfAll)
      (catPassOf filters data sfAll) (catPassOf filters data tfAll) ch))
  (exts.foldl (fun m e => min e.1 m) ⊤,
   exts.foldl (fun m e => max e.2.1 m) ⊥,
   exts.foldl (fun m e => min e.2.2.1 m) ⊤,
   exts.foldl (fun m e => max e.2.2.2 m) ⊥)

/-- The realized numeric intervals (lines 370-390 and 408-411): the global
extrema, each component falling back to the corresponding requested (or
facet-declared) bound while still at its `±∞` sentinel. -/
def realizedIntervals (lg : ℚ → ℚ) (filters : Filter) (data : CoverageData)
    (esI sigI : EFloat × EFloat) (sfAll tfAll : List (Finset ℕ)) :
    FilterIntervals :=
  let g := globalExtrema lg filters data sfAll tfAll
  { effect := (if g.1 = ⊤ then esI.1 else g.1,
               if g.2.1 = ⊥ then esI.2 else g.2.1)
    sig := (if g.2.2.1 = ⊤ then sigI.1 else g.2.2.1,
            if g.2.2.2 = ⊥ then sigI.2 else g.2.2.2) }

/-- The three distinct-id counts (lines 392-404 and 412-416): distinct reo
ids, distinct source feature ids, distinct target feature ids. -/
def itemCountsOf (lg : ℚ → ℚ) (filters : Filter) (data : CoverageData)
    (esI sigI : EFloat × EFloat) (sfAll tfAll : List (Finset ℕ)) : ℕ × ℕ × ℕ :=
  let nP := numPass (skipContOf filters) esI sigI lg
  let srcFast := roleFastOf filters data sfAll
  let tgtFast := roleFastOf filters data tfAll
  let catS := catPassOf filters data sfAll
  let catT := catPassOf filters data tfAll
  let reo := data.chromosomes.foldl (fun acc ch =>
    acc ∪ (roleIds srcFast catS nP ch.source_intervals).2
        ∪ (roleIds tgtFast catT nP ch.target_intervals).2) ∅
  let srcIds := data.chromosomes.foldl (fun acc ch =>
    acc ∪ (roleIds srcFast catS nP ch.source_intervals).1) ∅
  let tgtIds := data.chromosomes.foldl (fun acc ch =>
    acc ∪ (roleIds tgtFast catT nP ch.target_intervals).1) ∅
  (reo.card, srcIds.card, tgtIds.card)

/-- Embedding of `filter_coverage_data` (lines 21-421).  The parameter `lg`
supplies `log10` on positive rationals.  `none` models the panics of the Rust
function (missing well-known facet or range, missing coverage or values on a
categorical facet, zero bucket size, out-of-range associated bucket). -/
def filter_coverage_data (lg : ℚ → ℚ) (filters : Filter) (data : CoverageData) :
    Option FilteredDataIC :=
  (effect_size_interval filters data).bind (fun esI =>
  (sig_interval filters data).bind (fun sigI =>
  (roleFacets FacetCoverage.Source data).bind (fun sfAll =>
  (roleFacets FacetCoverage.Target data).bind (fun tfAll =>
    (data.chromosomes.mapM (chromResult (roleFastOf filters data sfAll)
        (roleFastOf filters data tfAll) (catPassOf filters data sfAll)
        (catPassOf filters data tfAll) (numPass (skipContOf filters) esI sigI lg)
        lg data)).map
      (fun chroms =>
        { chromosomes := chroms
          numeric_intervals := realizedIntervals lg filters data esI sigI sfAll tfAll
          item_counts := itemCountsOf lg filters data esI sigI sfAll tfAll })))))

/-! ## Helper lemmas -/

theorem efFin_ne_top (q : ℚ) : efFin q ≠ ⊤ := by
  intro h
  rw [show (⊤ : EFloat) = ((⊤ : WithTop ℚ) : EFloat) from rfl] at h
  exact WithTop.coe_ne_top (WithBot.coe_inj.mp h)

theorem neglog10_zero (lg : ℚ → ℚ) : neglog10 lg (efFin 0) = ⊤ := rfl

theorem neglog10_min_sig (lg : ℚ → ℚ) : neglog10 lg MIN_SIG = efFin (-(lg (1 / 10 ^ 100))) := by
  norm_num [neglog10, MIN_SIG, efFin]

theorem mapM_some_mem {α β : Type} (f : α → Option β) :
    ∀ (l : List α) (ys : List β), l.mapM f = some ys →
      ∀ y ∈ ys, ∃ x ∈ l, f x = some y := by
  intro l
  induction l with
  | nil =>
    intro ys h y hy
    rw [← List.mapM'_eq_mapM] at h
    simp only [List.mapM'] at h
    obtain rfl : ([] : List β) = ys := by simpa using h
    simp at hy
  | cons x xs ih =>
    intro ys h y hy
    rw [← List.mapM'_eq_mapM] at h
    simp only [List.mapM', List.mapM'_eq_mapM, Option.bind_eq_bind, Option.bind_eq_some,
      Option.pure_def, Option.some.injEq] at h
    obtain ⟨b, hfx, bs, hrest, hys⟩ := h
    subst hys
    rcases List.mem_cons.mp hy with h1 | h2
    · exact ⟨x, List.mem_cons_self x xs, h1 ▸ hfx⟩
    · obtain ⟨x', hx', hfx'⟩ := ih bs hrest y h2
      exact ⟨x', List.mem_cons_of_mem x hx', hfx'⟩

/-! ## Claim C9: merge_filtered_data on an empty vector -/

/-- C9: `merge_filtered_data` applied to an empty input vector panics (it
unconditionally indexes `result_data[0]`), modelled as `none`, even though
`merge_chromosomes` itself returns an empty list on empty input; and on any
non-empty input vector no such panic occurs (the result is always `some`). -/
theorem C9_merge_empty_panics :
    (∀ names : List String, merge_filtered_data [] names = none) ∧
    (∀ names : List String, merge_chromosomes [] names = []) ∧
    (∀ (rd : List FilteredData) (names : List String), rd ≠ [] →
      (merge_filtered_data rd names).isSome = true) := by
  refine ⟨fun _ => rfl, fun _ => rfl, ?_⟩
  intro rd names hne
  match rd with
  | [] => exact absurd rfl hne
  | d :: rest => simp [merge_filtered_data]

/-- Concrete `FilteredData` value used by the C9 witness. -/
def c9Data : FilteredData :=
  ⟨[], 5, ⟨(efFin 0, efFin 1), (efFin 0, efFin 1)⟩, 0, ∅, ∅⟩

/-- Witness for C9 at a concrete non-empty input. -/
theorem C9_merge_empty_panics_witness :
    [c9Data] ≠ [] ∧ (merge_filtered_data [c9Data] ["c"]).isSome = true :=
  ⟨by simp, C9_merge_empty_panics.2.2 [c9Data] ["c"] (by simp)⟩

/-! ## Claim C8: lookup-miss absorption in BucketList -/

/-- C8 counterexample: `BucketList::insert` does crash on some inputs — with
chromosome 0 present but carrying a one-element bucket vector, inserting at
bucket index 5 executes `v[5] = 1` and panics (modelled as `none`), so the
claim's "for every input, BucketList::insert and BucketList::insert_from
complete without crashing" is false. -/
theorem C8_counterexample :
    BucketList.insert ⟨[(0, [0])]⟩ 0 5 = none ∧
    BucketList.insert_from ⟨[(0, [0])]⟩ [⟨0, 5⟩] = none := by
  constructor <;> rfl

/-- C8 (amended): an insertion whose chromosome index is not a key of the
`BucketList` is silently skipped (the list is returned unchanged, no panic),
and `insert`/`insert_from` complete without crashing provided every inserted
location with a present chromosome key has its bucket index within that
chromosome's vector length; a present key with an out-of-range index
panics. -/
theorem C8_lookup_miss :
    (∀ (bl : BucketList) (c i : ℕ),
      bl.buckets.find? (fun p => p.1 = c) = none → bl.insert c i = some bl) ∧
    (∀ (bl : BucketList) (c i : ℕ),
      (∀ p ∈ bl.buckets, p.1 = c → i < p.2.length) →
      (bl.insert c i).isSome = true) ∧
    (∀ (bl : BucketList) (locs : List BucketLoc),
      (∀ loc ∈ locs, ∀ p ∈ bl.buckets, p.1 = loc.chrom → loc.idx < p.2.length) →
      (bl.insert_from locs).isSome = true) := by
  have hins : ∀ (bl : BucketList) (c i : ℕ),
      (∀ p ∈ bl.buckets, p.1 = c → i < p.2.length) →
      ∃ bl', bl.insert c i = some bl' ∧
        ∀ q ∈ bl'.buckets, ∃ p ∈ bl.buckets, q.1 = p.1 ∧ q.2.length = p.2.length := by
    intro bl c i h
    match hf : bl.buckets.find? (fun p => p.1 = c) with
    | none =>
      simp only [BucketList.insert, hf]
      exact ⟨bl, rfl, fun q hq => ⟨q, hq, rfl, rfl⟩⟩
    | some p =>
      have hpmem : p ∈ bl.buckets := List.mem_of_find?_eq_some hf
      have hpc : p.1 = c := by
        have := List.find?_some hf
        simpa using this
      have hlt : i < p.2.length := h p hpmem hpc
      simp only [BucketList.insert, hf, if_pos hlt]
      refine ⟨_, rfl, ?_⟩
      intro q hq
      obtain ⟨r, hr, hqr⟩ := List.mem_map.mp hq
      by_cases hc : r.1 = c
      · refine ⟨r, hr, ?_, ?_⟩ <;> simp [← hqr, hc]
      · refine ⟨r, hr, ?_, ?_⟩ <;> simp [← hqr, hc]
  refine ⟨?_, ?_, ?_⟩
  · intro bl c i hf
    simp only [BucketList.insert, hf]
  · intro bl c i h
    obtain ⟨bl', hbl', _⟩ := hins bl c i h
    simp [hbl']
  · intro bl locs h
    unfold BucketList.insert_from
    induction locs generalizing bl with
    | nil => rfl
    | cons loc rest ih =>
      obtain ⟨bl', hbl', hshape⟩ := hins bl loc.chrom loc.idx
        (fun p hp hpc => h loc (List.mem_cons_self _ _) p hp hpc)
      rw [List.foldlM_cons, hbl']
      refine ih bl' ?_
      intro l hl p hp hpc
      obtain ⟨p0, hp0, hk, hlen⟩ := hshape p hp
      exact hlen ▸ h l (List.mem_cons_of_mem _ hl) p0 hp0 (hk ▸ hpc)

/-- Witness for C8 at concrete inputs. -/
theorem C8_lookup_miss_witness :
    ((([(0, [0])] : List (ℕ × List ℕ)).find? (fun p => p.1 = 3) = none) ∧
      BucketList.insert ⟨[(0, [0])]⟩ 3 5 = some ⟨[(0, [0])]⟩) ∧
    (BucketList.insert ⟨[(0, [0, 0])]⟩ 0 1).isSome = true ∧
    (BucketList.insert_from ⟨[(0, [0, 0])]⟩ [⟨0, 1⟩, ⟨7, 9⟩]).isSome = true := by
  refine ⟨⟨by decide, C8_lookup_miss.1 ⟨[(0, [0])]⟩ 3 5 (by decide)⟩,
    C8_lookup_miss.2.1 ⟨[(0, [0, 0])]⟩ 0 1 (by decide),
    C8_lookup_miss.2.2 ⟨[(0, [0, 0])]⟩ [⟨0, 1⟩, ⟨7, 9⟩] (by decide)⟩

/-! ## Inversion lemmas for the filter pipeline -/

theorem processInterval_some {catP numP : ObservationData → Bool} {lg : ℚ → ℚ}
    {bl0 : BucketList} {iv : IntervalData} {b : FilteredBucket}
    (h : processInterval catP numP lg bl0 iv = some (some b)) :
    b.count ≠ 0 ∧ b.start = iv.start := by
  unfold processInterval at h
  rw [Option.map_eq_some'] at h
  obtain ⟨acc, -, hg⟩ := h
  by_cases hc : acc.count = 0
  · rw [if_pos hc] at hg; exact absurd hg (by simp)
  · rw [if_neg hc] at hg
    obtain rfl : _ = b := Option.some_injective _ hg
    exact ⟨hc, rfl⟩

theorem roleIntervals_some_mem {fast : Bool} {catP numP : ObservationData → Bool}
    {lg : ℚ → ℚ} {bl0 : BucketList} {ivs : List IntervalData}
    {bs : List FilteredBucket}
    (h : roleIntervals fast catP numP lg bl0 ivs = some bs) :
    ∀ b ∈ bs, (∃ iv ∈ ivs, fast = true ∧ b = fastBucket lg iv) ∨
      ∃ iv ∈ ivs, processInterval catP numP lg bl0 iv = some (some b) := by
  intro b hb
  unfold roleIntervals at h
  cases hf : fast with
  | true =>
    rw [hf, if_pos rfl] at h
    obtain rfl : _ = bs := Option.some_injective _ h
    obtain ⟨iv, hiv, rfl⟩ := List.mem_map.mp hb
    exact Or.inl ⟨iv, hiv, rfl, rfl⟩
  | false =>
    rw [hf] at h
    simp only [Bool.false_eq_true, if_false, Option.map_eq_some'] at h
    obtain ⟨lst, hlst, rfl⟩ := h
    have hsb : some b ∈ lst := List.reduceOption_mem_iff.mp hb
    obtain ⟨iv, hiv, hpi⟩ := mapM_some_mem _ _ _ hlst (some b) hsb
    exact Or.inr ⟨iv, hiv, hpi⟩

theorem chromResult_inv {srcFast tgtFast : Bool}
    {catS catT nP : ObservationData → Bool} {lg : ℚ → ℚ} {data : CoverageData}
    {ch : ChromosomeData} {fc : FilteredChromosome}
    (h : chromResult srcFast tgtFast catS catT nP lg data ch = some fc) :
    ch.bucket_size ≠ 0 ∧
    ∃ src tgt,
      roleIntervals srcFast catS nP lg
        (BucketList.new (data.chromosomes.zip data.chrom_lengths) ch.bucket_size)
        ch.source_intervals = some src ∧
      roleIntervals tgtFast catT nP lg
        (BucketList.new (data.chromosomes.zip data.chrom_lengths) ch.bucket_size)
        ch.target_intervals = some tgt ∧
      fc = { chrom := ch.chrom, index := ch.index, bucket_size := ch.bucket_size
             target_intervals := tgt, source_intervals := src } := by
  unfold chromResult at h
  by_cases hz : ch.bucket_size = 0
  · rw [if_pos hz] at h; exact absurd h (by simp)
  · rw [if_neg hz] at h
    simp only [Option.bind_eq_some, Option.map_eq_some'] at h
    obtain ⟨src, hsrc, tgt, htgt, hfc⟩ := h
    exact ⟨hz, src, tgt, hsrc, htgt, hfc.symm⟩

theorem filter_coverage_data_inv {lg : ℚ → ℚ} {filters : Filter}
    {data : CoverageData} {out : FilteredDataIC}
    (h : filter_coverage_data lg filters data = some out) :
    ∃ esI sigI sfAll tfAll chroms,
      effect_size_interval filters data = some esI ∧
      sig_interval filters data = some sigI ∧
      roleFacets FacetCoverage.Source data = some sfAll ∧
      roleFacets FacetCoverage.Target data = some tfAll ∧
      data.chromosomes.mapM (chromResult (roleFastOf filters data sfAll)
        (roleFastOf filters data tfAll) (catPassOf filters data sfAll)
        (catPassOf filters data tfAll) (numPass (skipContOf filters) esI sigI lg)
        lg data) = some chroms ∧
      out = { chromosomes := chroms
              numeric_intervals := realizedIntervals lg filters data esI sigI sfAll tfAll
              item_counts := itemCountsOf lg filters data esI sigI sfAll tfAll } := by
  unfold filter_coverage_data at h
  simp only [Option.bind_eq_some, Option.map_eq_some'] at h
  obtain ⟨esI, hes, sigI, hsig, sfAll, hsf, tfAll, htf, chroms, hmm, hout⟩ := h
  exact ⟨esI, sigI, sfAll, tfAll, chroms, hes, hsig, hsf, htf, hmm, hout.symm⟩

/-! ## Claim C4: chromosome restriction -/

/-- Concrete filter for the C4 counterexample: chromosome restricted to
index 0, nothing else requested. -/
def c4Filter : Filter := ⟨some 0, ∅, none⟩

/-- Concrete catalog for the C4 counterexample: two chromosomes, each with one
populated source interval; numeric facets only. -/
def c4Data : CoverageData :=
  ⟨[⟨"Effect Size", "FacetType.NUMERIC", none, some (efFin (-1), efFin 1), none⟩,
    ⟨"Significance", "FacetType.NUMERIC", none, some (efFin 0, efFin 10), none⟩],
   [⟨"chrA", 0, 10, [⟨1, [⟨1, [⟨100, [], efFin 0, efFin 1⟩], []⟩]⟩], []⟩,
    ⟨"chrB", 1, 10, [⟨1, [⟨2, [⟨101, [], efFin 0, efFin 1⟩], []⟩]⟩], []⟩],
   [100, 100], 10⟩

/-- C4 counterexample: with `Filter.chrom = some 0`, the output of
`filter_coverage_data` still contains a filtered bucket for chromosome
index 1 — nothing is dropped at assembly time, so the claim that the result
"contains filtered buckets only for that chromosome" is false. -/
theorem C4_counterexample :
    c4Filter.chrom = some 0 ∧
    (filter_coverage_data (fun _ => 0) c4Filter c4Data).map
        (fun o => o.chromosomes.map (fun c => (c.index, c.source_intervals.length))) =
      some [(0, 1), (1, 1)] := by
  constructor
  · rfl
  · rfl

/-- C4 (amended): `filter_coverage_data` ignores the `chrom` field of the
`Filter` entirely — the result is identical for every value of `chrom`, so no
buckets are dropped at assembly time; the per-observation predicate (and the
whole function) is chromosome-agnostic. -/
theorem C4_chrom_ignored (lg : ℚ → ℚ) (filters : Filter) (data : CoverageData)
    (c : Option ℕ) :
    filter_coverage_data lg { filters with chrom := c } data =
      filter_coverage_data lg filters data := rfl

/-! ## Claim C10: the MIN_SIG floor is never applied -/

/-- Concrete filter for the C10 propagation conjunct: numeric interval with an
unbounded significance range, so a zero-significance observation is included. -/
def c10Filter : Filter := ⟨none, ∅, some ⟨(efFin (-10), efFin 10), (⊥, ⊤)⟩⟩

/-- Concrete catalog for C10: one observation whose stored significance is 0. -/
def c10Data : CoverageData :=
  ⟨[], [⟨"chr1", 0, 10, [⟨1, [⟨1, [⟨100, [], efFin 1, efFin 0⟩], []⟩]⟩], []⟩],
   [100], 10⟩

/-- C10: the `MIN_SIG` floor is never applied — filtering computes `obs_sig`
as `-log10` of the stored significance directly, so a stored significance of
0 yields `+∞`: (i) `neglog10` at 0 is `⊤` for every `log10` model, unlike at
the floor `MIN_SIG`, which is always finite; (ii) `+∞` fails every finite
upper bound in the numeric-range comparison; (iii) on a concrete catalog with
a zero-significance observation, `+∞` propagates into the emitted bucket's
`max_log10_sig` and into the realized significance interval. -/
theorem C10_min_sig_unused :
    (∀ lg : ℚ → ℚ, neglog10 lg (efFin 0) = ⊤) ∧
    (∀ lg : ℚ → ℚ, neglog10 lg MIN_SIG ≠ ⊤) ∧
    (∀ (lg : ℚ → ℚ) (b : EFloat), b ≠ ⊤ → ¬(neglog10 lg (efFin 0) ≤ b)) ∧
    (filter_coverage_data (fun _ => 0) c10Filter c10Data).map
        (fun o => (o.numeric_intervals.sig.2,
          o.chromosomes.map (fun c => c.source_intervals.map
            (fun b => b.max_log10_sig)))) =
      some (⊤, [[⊤]]) := by
  refine ⟨neglog10_zero, ?_, ?_, rfl⟩
  · intro lg
    rw [neglog10_min_sig]
    exact efFin_ne_top _
  · intro lg b hb hle
    rw [neglog10_zero] at hle
    exact hb (top_le_iff.mp hle)

/-- Witness for C10 discharging the `b ≠ ⊤` hypothesis at a concrete bound. -/
theorem C10_min_sig_unused_witness :
    (efFin 3 : EFloat) ≠ ⊤ ∧ ¬(neglog10 (fun _ => 0) (efFin 0) ≤ efFin 3) :=
  ⟨efFin_ne_top 3, C10_min_sig_unused.2.2.1 (fun _ => 0) (efFin 3) (efFin_ne_top 3)⟩

/-! ## Claim C5: sparsity -/

/-- Concrete catalog for the C5 counterexample: its only source interval has
an empty feature list (nothing in the loader's contract visible to this crate
rules that out), so the fast path emits it with `count = 0`. -/
def c5Data : CoverageData :=
  ⟨[⟨"Effect Size", "FacetType.NUMERIC", none, some (efFin (-1), efFin 1), none⟩,
    ⟨"Significance", "FacetType.NUMERIC", none, some (efFin 0, efFin 10), none⟩],
   [⟨"chr1", 0, 10, [⟨1, []⟩], []⟩], [100], 10⟩

/-- C5 counterexample: on the no-filtering fast path the bucket count is the
raw feature count of the catalog interval, so a catalog interval with no
features yields a `FilteredBucket` with `count = 0` in the output — the
claim's "for every catalog" is false. -/
theorem C5_counterexample :
    (filter_coverage_data (fun _ => 0) ⟨none, ∅, none⟩ c5Data).map
        (fun o => o.chromosomes.map (fun c => c.source_intervals.map
          (fun b => b.count))) =
      some [[0]] := rfl

/-- C5 (amended): provided every catalog interval holds at least one feature,
no `FilteredBucket` with `count = 0` appears in any `source_intervals` or
`target_intervals` sequence produced by `filter_coverage_data` — on the
filtering path unconditionally (buckets are pushed only when the included
count is positive), and on the no-filtering fast path because the count is
the interval's feature count. -/
theorem C5_sparsity (lg : ℚ → ℚ) (filters : Filter) (data : CoverageData)
    (out : FilteredDataIC) (h : filter_coverage_data lg filters data = some out)
    (hne : ∀ ch ∈ data.chromosomes,
      ∀ iv ∈ ch.source_intervals ++ ch.target_intervals, iv.values ≠ []) :
    ∀ c ∈ out.chromosomes,
      ∀ b ∈ c.source_intervals ++ c.target_intervals, b.count ≠ 0 := by
  obtain ⟨esI, sigI, sfAll, tfAll, chroms, -, -, -, -, hmm, hout⟩ :=
    filter_coverage_data_inv h
  subst hout
  intro c hc b hb
  obtain ⟨ch, hch, hcr⟩ := mapM_some_mem _ _ _ hmm c hc
  obtain ⟨-, src, tgt, hsrc, htgt, rfl⟩ := chromResult_inv hcr
  have hcases :
      (∃ iv ∈ ch.source_intervals ++ ch.target_intervals, b.count = iv.values.length) ∨
      b.count ≠ 0 := by
    rcases List.mem_append.mp hb with hbs | hbt
    · rcases roleIntervals_some_mem hsrc b hbs with ⟨iv, hiv, -, rfl⟩ | ⟨iv, -, hpi⟩
      · exact Or.inl ⟨iv, List.mem_append_left _ hiv, rfl⟩
      · exact Or.inr (processInterval_some hpi).1
    · rcases roleIntervals_some_mem htgt b hbt with ⟨iv, hiv, -, rfl⟩ | ⟨iv, -, hpi⟩
      · exact Or.inl ⟨iv, List.mem_append_right _ hiv, rfl⟩
      · exact Or.inr (processInterval_some hpi).1
  rcases hcases with ⟨iv, hiv, hcnt⟩ | hpos
  · rw [hcnt]
    exact fun h0 => hne ch hch iv hiv (List.length_eq_zero.mp h0)
  · exact hpos

/-- Concrete witness catalog for C5: one populated interval. -/
def c5wData : CoverageData :=
  ⟨[⟨"Effect Size", "FacetType.NUMERIC", none, some (efFin (-1), efFin 1), none⟩,
    ⟨"Significance", "FacetType.NUMERIC", none, some (efFin 0, efFin 10), none⟩],
   [⟨"chr1", 0, 10, [⟨1, [⟨1, [⟨100, [], efFin 5, efFin 1⟩], [⟨0, 2⟩]⟩]⟩], []⟩],
   [100], 10⟩

/-- The output of `filter_coverage_data` on the C5 witness catalog. -/
def c5wOut : FilteredDataIC :=
  ⟨[⟨"chr1", 0, 10, [], [⟨1, 1, [0, 2], efFin 0, efFin 5⟩]⟩],
   ⟨(efFin (-1), efFin 1), (efFin 0, efFin 10)⟩, (1, 1, 0)⟩

set_option maxRecDepth 10000 in
/-- Witness for C5 at a concrete catalog and filter. -/
theorem C5_sparsity_witness :
    filter_coverage_data (fun _ => 0) ⟨none, ∅, none⟩ c5wData = some c5wOut ∧
    (∀ ch ∈ c5wData.chromosomes,
      ∀ iv ∈ ch.source_intervals ++ ch.target_intervals, iv.values ≠ []) ∧
    ∀ c ∈ c5wOut.chromosomes,
      ∀ b ∈ c.source_intervals ++ c.target_intervals, b.count ≠ 0 :=
  ⟨by with_unfolding_all rfl, by decide,
    C5_sparsity (fun _ => 0) ⟨none, ∅, none⟩ c5wData c5wOut
      (by with_unfolding_all rfl) (by decide)⟩

/-! ## Merge-join lemmas -/

theorem merge_intervals_nil_left (js : List FilteredBucket) :
    merge_intervals [] js = js := by
  cases js <;> simp [merge_intervals]

theorem merge_intervals_nil_right (is_ : List FilteredBucket) :
    merge_intervals is_ [] = is_ := by
  cases is_ <;> simp [merge_intervals, mergeGo]

theorem merge_intervals_cons_lt {i j : FilteredBucket}
    (is_ js : List FilteredBucket) (h : i.start < j.start) :
    merge_intervals (i :: is_) (j :: js) = i :: merge_intervals is_ (j :: js) := by
  simp [merge_intervals, mergeGo, h]

theorem merge_intervals_cons_gt {i j : FilteredBucket}
    (is_ js : List FilteredBucket) (h : j.start < i.start) :
    merge_intervals (i :: is_) (j :: js) = j :: merge_intervals (i :: is_) js := by
  simp [merge_intervals, mergeGo, h, Nat.lt_asymm h]

theorem merge_intervals_cons_eq {i j : FilteredBucket}
    (is_ js : List FilteredBucket) (h : i.start = j.start) :
    merge_intervals (i :: is_) (j :: js) =
      combineBucket i j :: merge_intervals is_ js := by
  simp [merge_intervals, mergeGo, h]

theorem merge_intervals_start_mem :
    ∀ (a b : List FilteredBucket), ∀ z ∈ merge_intervals a b,
      (∃ x ∈ a, z.start = x.start) ∨ ∃ y ∈ b, z.start = y.start := by
  intro a
  induction a with
  | nil =>
    intro b z hz
    rw [merge_intervals_nil_left] at hz
    exact Or.inr ⟨z, hz, rfl⟩
  | cons i is_ ih =>
    intro b
    induction b with
    | nil =>
      intro z hz
      rw [merge_intervals_nil_right] at hz
      exact Or.inl ⟨z, hz, rfl⟩
    | cons j js ihb =>
      intro z hz
      rcases Nat.lt_trichotomy i.start j.start with hlt | heq | hgt
      · rw [merge_intervals_cons_lt _ _ hlt] at hz
        rcases List.mem_cons.mp hz with hzi | hz'
        · exact Or.inl ⟨i, List.mem_cons_self _ _, by rw [hzi]⟩
        · rcases ih (j :: js) z hz' with ⟨x, hx, hzx⟩ | hr
          · exact Or.inl ⟨x, List.mem_cons_of_mem _ hx, hzx⟩
          · exact Or.inr hr
      · rw [merge_intervals_cons_eq _ _ heq] at hz
        rcases List.mem_cons.mp hz with hzi | hz'
        · exact Or.inr ⟨j, List.mem_cons_self _ _, by rw [hzi]; rfl⟩
        · rcases ih js z hz' with ⟨x, hx, hzx⟩ | ⟨y, hy, hzy⟩
          · exact Or.inl ⟨x, List.mem_cons_of_mem _ hx, hzx⟩
          · exact Or.inr ⟨y, List.mem_cons_of_mem _ hy, hzy⟩
      · rw [merge_intervals_cons_gt _ _ hgt] at hz
        rcases List.mem_cons.mp hz with hzi | hz'
        · exact Or.inr ⟨j, List.mem_cons_self _ _, by rw [hzi]⟩
        · rcases ihb z hz' with ⟨x, hx, hzx⟩ | ⟨y, hy, hzy⟩
          · exact Or.inl ⟨x, hx, hzx⟩
          · exact Or.inr ⟨y, List.mem_cons_of_mem _ hy, hzy⟩

theorem merge_intervals_sorted :
    ∀ (a b : List FilteredBucket),
      a.Pairwise (fun u v => u.start < v.start) →
      b.Pairwise (fun u v => u.start < v.start) →
      (merge_intervals a b).Pairwise (fun u v => u.start < v.start) := by
  intro a
  induction a with
  | nil =>
    intro b _ hb
    rw [merge_intervals_nil_left]
    exact hb
  | cons i is_ ih =>
    intro b
    induction b with
    | nil =>
      intro ha _
      rw [merge_intervals_nil_right]
      exact ha
    | cons j js ihb =>
      intro ha hb
      have ha' := (List.pairwise_cons.mp ha).2
      have hah := (List.pairwise_cons.mp ha).1
      have hb' := (List.pairwise_cons.mp hb).2
      have hbh := (List.pairwise_cons.mp hb).1
      rcases Nat.lt_trichotomy i.start j.start with hlt | heq | hgt
      · rw [merge_intervals_cons_lt _ _ hlt]
        refine List.pairwise_cons.mpr ⟨?_, ih (j :: js) ha' hb⟩
        intro z hz
        rcases merge_intervals_start_mem _ _ z hz with ⟨x, hx, hzx⟩ | ⟨y, hy, hzy⟩
        · have := hah x hx; omega
        · rcases List.mem_cons.mp hy with hyj | hy'
          · rw [hzy, hyj]; exact hlt
          · have := hbh y hy'; omega
      · rw [merge_intervals_cons_eq _ _ heq]
        refine List.pairwise_cons.mpr ⟨?_, ih js ha' hb'⟩
        intro z hz
        have hcs : (combineBucket i j).start = j.start := rfl
        rcases merge_intervals_start_mem _ _ z hz with ⟨x, hx, hzx⟩ | ⟨y, hy, hzy⟩
        · have := hah x hx; omega
        · have := hbh y hy; omega
      · rw [merge_intervals_cons_gt _ _ hgt]
        refine List.pairwise_cons.mpr ⟨?_, ihb ha hb'⟩
        intro z hz
        rcases merge_intervals_start_mem _ _ z hz with ⟨x, hx, hzx⟩ | ⟨y, hy, hzy⟩
        · rcases List.mem_cons.mp hx with hxi | hx'
          · rw [hzx, hxi]; exact hgt
          · have := hah x hx'; omega
        · have := hbh y hy; omega

/-! ## Claim C2: equal-start combination in the merge-join -/

/-- C2: when the two current buckets of the merge-join have equal start, the
merged output contains exactly one bucket at that start; it is the
combination whose count is the sum of the two counts, whose
`associated_buckets` is the concatenation of the two lists (incoming result
first, no deduplication), whose `max_log10_sig` is the maximum of the two,
and whose `max_abs_effect` is one of the two operands, carrying the larger
absolute value (its sign preserved; an exact tie keeps the accumulator's
operand). -/
theorem C2_equal_start_combination (x y : FilteredBucket)
    (as_ bs : List FilteredBucket)
    (hx : (x :: as_).Pairwise (fun u v => u.start < v.start))
    (hy : (y :: bs).Pairwise (fun u v => u.start < v.start))
    (hs : x.start = y.start) :
    merge_intervals (x :: as_) (y :: bs) =
      combineBucket x y :: merge_intervals as_ bs ∧
    (merge_intervals (x :: as_) (y :: bs)).filter
      (fun z => z.start = x.start) = [combineBucket x y] ∧
    (combineBucket x y).start = x.start ∧
    (combineBucket x y).count = x.count + y.count ∧
    (combineBucket x y).associated_buckets =
      y.associated_buckets ++ x.associated_buckets ∧
    (combineBucket x y).max_log10_sig = max x.max_log10_sig y.max_log10_sig ∧
    efAbs (combineBucket x y).max_abs_effect =
      max (efAbs x.max_abs_effect) (efAbs y.max_abs_effect) ∧
    ((combineBucket x y).max_abs_effect = x.max_abs_effect ∨
      (combineBucket x y).max_abs_effect = y.max_abs_effect) := by
  have hstep := merge_intervals_cons_eq as_ bs hs
  have hcstart : (combineBucket x y).start = x.start := by
    simp [combineBucket, hs]
  refine ⟨hstep, ?_, hcstart, ?_, rfl, ?_, ?_, ?_⟩
  · rw [hstep]
    have htail : (merge_intervals as_ bs).filter (fun z => z.start = x.start) = [] := by
      rw [List.filter_eq_nil_iff]
      intro z hz
      have hah := (List.pairwise_cons.mp hx).1
      have hbh := (List.pairwise_cons.mp hy).1
      rcases merge_intervals_start_mem _ _ z hz with ⟨u, hu, hzu⟩ | ⟨v, hv, hzv⟩
      · have : x.start < z.start := hzu ▸ hah u hu
        simp only [decide_eq_true_eq]
        omega
      · have : x.start < z.start := by
          rw [hzv, hs]
          exact hbh v hv
        simp only [decide_eq_true_eq]
        omega
    rw [List.filter_cons, if_pos (by simp [hcstart]), htail]
  · simp [combineBucket, Nat.add_comm]
  · simp [combineBucket, max_comm]
  · by_cases h : efAbs y.max_abs_effect > efAbs x.max_abs_effect
    · simp [combineBucket, if_pos h, max_eq_right (le_of_lt h)]
    · simp [combineBucket, if_neg h, max_eq_left (le_of_not_lt h)]
  · by_cases h : efAbs y.max_abs_effect > efAbs x.max_abs_effect
    · exact Or.inr (by simp [combineBucket, if_pos h])
    · exact Or.inl (by simp [combineBucket, if_neg h])

/-- Witness for C2 at concrete buckets. -/
theorem C2_equal_start_combination_witness :
    ([(⟨3, 2, [1], efFin 1, efFin (-4)⟩ : FilteredBucket), ⟨9, 1, [], efFin 0, efFin 0⟩].Pairwise
      (fun u v => u.start < v.start)) ∧
    ([(⟨3, 5, [7], efFin 6, efFin 2⟩ : FilteredBucket)].Pairwise
      (fun u v => u.start < v.start)) ∧
    merge_intervals
        [⟨3, 2, [1], efFin 1, efFin (-4)⟩, ⟨9, 1, [], efFin 0, efFin 0⟩]
        [⟨3, 5, [7], efFin 6, efFin 2⟩] =
      combineBucket ⟨3, 2, [1], efFin 1, efFin (-4)⟩ ⟨3, 5, [7], efFin 6, efFin 2⟩ ::
        merge_intervals [⟨9, 1, [], efFin 0, efFin 0⟩] [] :=
  ⟨by decide, by decide,
    (C2_equal_start_combination ⟨3, 2, [1], efFin 1, efFin (-4)⟩
      ⟨3, 5, [7], efFin 6, efFin 2⟩ [⟨9, 1, [], efFin 0, efFin 0⟩] []
      (by decide) (by decide) rfl).1⟩

/-! ## Claim C6: ordering -/

theorem mapM_cons_some {β α : Type} {g : α → Option β} {a : α} {rest : List α}
    {out : List β} (h : List.mapM g (a :: rest) = some out) :
    ∃ b bs, g a = some b ∧ rest.mapM g = some bs ∧ out = b :: bs := by
  rw [← List.mapM'_eq_mapM] at h
  simp only [List.mapM', List.mapM'_eq_mapM, Option.bind_eq_bind, Option.bind_eq_some,
    Option.pure_def, Option.some.injEq] at h
  obtain ⟨b, hga, bs, hrest, hout⟩ := h
  exact ⟨b, bs, hga, hrest, hout.symm⟩

theorem mapM_processInterval_starts {catP numP : ObservationData → Bool}
    {lg : ℚ → ℚ} {bl0 : BucketList} :
    ∀ (ivs : List IntervalData) (lst : List (Option FilteredBucket)),
      ivs.mapM (processInterval catP numP lg bl0) = some lst →
      (lst.reduceOption.map (fun b => b.start)).Sublist
        (ivs.map (fun iv => iv.start)) := by
  intro ivs
  induction ivs with
  | nil =>
    intro lst h
    have hl : lst = [] := by
      rw [← List.mapM'_eq_mapM] at h
      simpa [List.mapM'] using h.symm
    subst hl
    simp
  | cons iv rest ih =>
    intro lst h
    obtain ⟨ob, obs_, hpi, hrest, rfl⟩ := mapM_cons_some h
    cases ob with
    | none =>
      simp only [List.reduceOption_cons_of_none, List.map_cons]
      exact (ih obs_ hrest).cons _
    | some b =>
      have hb := (processInterval_some hpi).2
      simp only [List.reduceOption_cons_of_some, List.map_cons, hb]
      exact (ih obs_ hrest).cons₂ _

theorem roleIntervals_sorted {fast : Bool} {catP numP : ObservationData → Bool}
    {lg : ℚ → ℚ} {bl0 : BucketList} {ivs : List IntervalData}
    {bs : List FilteredBucket}
    (h : roleIntervals fast catP numP lg bl0 ivs = some bs)
    (hs : ivs.Pairwise (fun u v => u.start < v.start)) :
    bs.Pairwise (fun u v => u.start < v.start) := by
  unfold roleIntervals at h
  cases hf : fast with
  | true =>
    rw [hf, if_pos rfl] at h
    obtain rfl : _ = bs := Option.some_injective _ h
    exact List.pairwise_map.mpr hs
  | false =>
    rw [hf] at h
    simp only [Bool.false_eq_true, if_false, Option.map_eq_some'] at h
    obtain ⟨lst, hlst, rfl⟩ := h
    have hsub := mapM_processInterval_starts ivs lst hlst
    have hsorted : ((ivs.map (fun iv => iv.start)).Pairwise (fun u v : ℕ => u < v)) :=
      List.pairwise_map.mpr hs
    exact List.pairwise_map.mp (List.Pairwise.sublist hsub hsorted)

/-- Strict start-ascending ordering of both interval sequences of one output
chromosome. -/
abbrev sortedChrom (c : FilteredChromosome) : Prop :=
  c.source_intervals.Pairwise (fun u v => u.start < v.start) ∧
  c.target_intervals.Pairwise (fun u v => u.start < v.start)

theorem mergeChromPair_sorted {a b : FilteredChromosome}
    (ha : sortedChrom a) (hb : sortedChrom b) :
    sortedChrom (mergeChromPair a b) :=
  ⟨merge_intervals_sorted _ _ ha.1 hb.1, merge_intervals_sorted _ _ ha.2 hb.2⟩

theorem mergeStepData_sorted {n : String} {st : FilteredChromosome × List String}
    {fd : FilteredData} (hst : sortedChrom st.1)
    (hfd : ∀ c ∈ fd.chromosomes, sortedChrom c) :
    sortedChrom (mergeStepData n st fd).1 := by
  unfold mergeStepData
  cases hf : fd.chromosomes.find? (fun c => c.chrom = n) with
  | none => exact hst
  | some fc =>
    have hfc : sortedChrom fc := hfd fc (List.mem_of_find?_eq_some hf)
    by_cases hcov : fc.chrom ∈ st.2
    · simpa [hcov] using mergeChromPair_sorted hst hfc
    · simpa [hcov] using hfc

theorem foldl_mergeStep_sorted {n : String} :
    ∀ (rd : List FilteredData) (st : FilteredChromosome × List String),
      sortedChrom st.1 → (∀ d ∈ rd, ∀ c ∈ d.chromosomes, sortedChrom c) →
      sortedChrom (rd.foldl (mergeStepData n) st).1 := by
  intro rd
  induction rd with
  | nil => intro st hst _; exact hst
  | cons d rest ih =>
    intro st hst hrd
    rw [List.foldl_cons]
    exact ih _ (mergeStepData_sorted hst (hrd d (List.mem_cons_self _ _)))
      (fun d' hd' c hc => hrd d' (List.mem_cons_of_mem _ hd') c hc)

theorem mergeChromosomesLoop_sorted {rd : List FilteredData}
    (hrd : ∀ d ∈ rd, ∀ c ∈ d.chromosomes, sortedChrom c) :
    ∀ (names covered : List String),
      ∀ c ∈ mergeChromosomesLoop rd names covered, sortedChrom c := by
  intro names
  induction names with
  | nil => intro covered c hc; simp [mergeChromosomesLoop] at hc
  | cons n rest ih =>
    intro covered c hc
    rw [mergeChromosomesLoop] at hc
    rcases List.mem_cons.mp hc with hch | hc'
    · rw [hch]
      exact foldl_mergeStep_sorted rd _ (by simp [defaultChrom, sortedChrom]) hrd
    · exact ih _ c hc'

/-- Concrete catalog for the C6 counterexample: the catalog's source intervals
appear with starts `[5, 3]`, and the fast path copies them through in catalog
order. -/
def c6Data : CoverageData :=
  ⟨[⟨"Effect Size", "FacetType.NUMERIC", none, some (efFin (-1), efFin 1), none⟩,
    ⟨"Significance", "FacetType.NUMERIC", none, some (efFin 0, efFin 10), none⟩],
   [⟨"chr1", 0, 10, [⟨5, [⟨1, [], []⟩]⟩, ⟨3, [⟨2, [], []⟩]⟩], []⟩], [100], 10⟩

/-- C6 counterexample: `filter_coverage_data` preserves the catalog's interval
order, so a catalog whose interval sequence is not start-ascending produces an
output sequence that is not start-ascending — the claim's unconditional
ordering statement for `filter_coverage_data` is false. -/
theorem C6_counterexample :
    (filter_coverage_data (fun _ => 0) ⟨none, ∅, none⟩ c6Data).map
        (fun o => o.chromosomes.map (fun c => c.source_intervals.map
          (fun b => b.start))) =
      some [[5, 3]] ∧
    ¬ List.Pairwise (fun u v : ℕ => u < v) [5, 3] :=
  ⟨rfl, by decide⟩

/-- C6 (amended): provided the catalog's interval sequences are strictly
start-ascending, every `source_intervals` and `target_intervals` sequence of
the `FilteredData` produced by `filter_coverage_data` is strictly ascending by
start; and every such sequence produced by `merge_filtered_data` from inputs
whose interval sequences are start-ascending is strictly ascending by
start. -/
theorem C6_ordering :
    (∀ (lg : ℚ → ℚ) (filters : Filter) (data : CoverageData)
        (out : FilteredDataIC),
      filter_coverage_data lg filters data = some out →
      (∀ ch ∈ data.chromosomes,
        ch.source_intervals.Pairwise (fun u v => u.start < v.start) ∧
        ch.target_intervals.Pairwise (fun u v => u.start < v.start)) →
      ∀ c ∈ out.chromosomes, sortedChrom c) ∧
    (∀ (rd : List FilteredData) (names : List String) (out : FilteredData),
      merge_filtered_data rd names = some out →
      (∀ d ∈ rd, ∀ c ∈ d.chromosomes, sortedChrom c) →
      ∀ c ∈ out.chromosomes, sortedChrom c) := by
  constructor
  · intro lg filters data out h hsorted c hc
    obtain ⟨esI, sigI, sfAll, tfAll, chroms, -, -, -, -, hmm, hout⟩ :=
      filter_coverage_data_inv h
    subst hout
    obtain ⟨ch, hch, hcr⟩ := mapM_some_mem _ _ _ hmm c hc
    obtain ⟨-, src, tgt, hsrc, htgt, rfl⟩ := chromResult_inv hcr
    exact ⟨roleIntervals_sorted hsrc (hsorted ch hch).1,
           roleIntervals_sorted htgt (hsorted ch hch).2⟩
  · intro rd names out h hrd c hc
    match rd, h with
    | d0 :: rest, h =>
      have hout : out.chromosomes = merge_chromosomes (d0 :: rest) names := by
        simp only [merge_filtered_data] at h
        obtain rfl : _ = out := Option.some_injective _ h
        rfl
      rw [hout] at hc
      match rest with
      | [] =>
        have : merge_chromosomes [d0] names = d0.chromosomes := rfl
        rw [this] at hc
        exact hrd d0 (List.mem_cons_self _ _) c hc
      | d1 :: rest' =>
        have : merge_chromosomes (d0 :: d1 :: rest') names =
            mergeChromosomesLoop (d0 :: d1 :: rest') names [] := rfl
        rw [this] at hc
        exact mergeChromosomesLoop_sorted hrd names [] c hc

/-- Concrete witness catalog for C6 with start-ascending intervals. -/
def c6wData : CoverageData :=
  ⟨[⟨"Effect Size", "FacetType.NUMERIC", none, some (efFin (-1), efFin 1), none⟩,
    ⟨"Significance", "FacetType.NUMERIC", none, some (efFin 0, efFin 10), none⟩],
   [⟨"chr1", 0, 10, [⟨1, [⟨1, [], []⟩]⟩, ⟨4, [⟨2, [], []⟩]⟩], []⟩], [100], 10⟩

/-- The output of `filter_coverage_data` on the C6 witness catalog. -/
def c6wOut : FilteredDataIC :=
  ⟨[⟨"chr1", 0, 10, [],
     [⟨1, 1, [], f32MIN, efFin 0⟩, ⟨4, 1, [], f32MIN, efFin 0⟩]⟩],
   ⟨(efFin (-1), efFin 1), (efFin 0, efFin 10)⟩, (0, 2, 0)⟩

/-- First concrete merge input for the C6 witness. -/
def c6m1 : FilteredData :=
  ⟨[⟨"c", 0, 10, [⟨2, 1, [9], efFin 2, efFin 1⟩],
     [⟨1, 2, [3], efFin 1, efFin (-2)⟩, ⟨7, 1, [], efFin 0, efFin 0⟩]⟩],
   10, ⟨(efFin 0, efFin 1), (efFin 0, efFin 1)⟩, 2, {1}, {2}⟩

/-- Second concrete merge input for the C6 witness. -/
def c6m2 : FilteredData :=
  ⟨[⟨"c", 0, 10, [],
     [⟨1, 3, [5], efFin 9, efFin 5⟩, ⟨4, 1, [], efFin 0, efFin 0⟩]⟩],
   10, ⟨(efFin (-3), efFin 0), (efFin 1, efFin 4)⟩, 3, {1, 4}, {7}⟩

set_option maxRecDepth 10000 in
/-- Witness for C6 at concrete inputs, for both conjuncts (the merged output
is named through `Option.getD`, the merge being `some` by construction on a
non-empty input list). -/
theorem C6_ordering_witness :
    filter_coverage_data (fun _ => 0) ⟨none, ∅, none⟩ c6wData = some c6wOut ∧
    (∀ c ∈ c6wOut.chromosomes, sortedChrom c) ∧
    ∀ c ∈ ((merge_filtered_data [c6m1, c6m2] ["c"]).getD
        ⟨[], 0, ⟨(⊥, ⊤), (⊥, ⊤)⟩, 0, ∅, ∅⟩).chromosomes, sortedChrom c := by
  have hf : filter_coverage_data (fun _ => 0) ⟨none, ∅, none⟩ c6wData = some c6wOut := by
    with_unfolding_all rfl
  have hs : (merge_filtered_data [c6m1, c6m2] ["c"]).isSome = true := rfl
  have hm : merge_filtered_data [c6m1, c6m2] ["c"] =
      some ((merge_filtered_data [c6m1, c6m2] ["c"]).getD
        ⟨[], 0, ⟨(⊥, ⊤), (⊥, ⊤)⟩, 0, ∅, ∅⟩) := by
    cases hx : merge_filtered_data [c6m1, c6m2] ["c"] with
    | none => rw [hx] at hs; simp at hs
    | some a => simp
  exact ⟨hf, C6_ordering.1 (fun _ => 0) ⟨none, ∅, none⟩ c6wData c6wOut hf (by decide),
    C6_ordering.2 [c6m1, c6m2] ["c"] _ hm (by decide)⟩

/-! ## Claim C1: the categorical facet test -/

theorem isDisjointSel_iff (a : List ℕ) (s : Finset ℕ) :
    isDisjointSel a s = true ↔ Disjoint a.toFinset s := by
  simp [isDisjointSel, List.all_eq_true, Finset.disjoint_left, List.mem_toFinset]

theorem presentFacetIds_subset {data : CoverageData} {facet : FacetData}
    {vs : List ℕ} (hmem : facet ∈ data.facets) (hvs : facet.values = some vs) :
    vs.toFinset ⊆ presentFacetIds data := by
  unfold presentFacetIds
  have hgrow : ∀ (l : List FacetData) (acc : Finset ℕ),
      acc ⊆ l.foldl (fun acc f => match f.values with
        | some vs => acc ∪ vs.toFinset
        | none => acc) acc := by
    intro l
    induction l with
    | nil => intro acc; exact Finset.Subset.refl acc
    | cons f rest ih =>
      intro acc
      rw [List.foldl_cons]
      refine Finset.Subset.trans ?_ (ih _)
      cases f.values with
      | none => exact Finset.Subset.refl acc
      | some vs => exact Finset.subset_union_left
  have hstep : ∀ (l : List FacetData) (acc : Finset ℕ), facet ∈ l →
      vs.toFinset ⊆ l.foldl (fun acc f => match f.values with
        | some vs => acc ∪ vs.toFinset
        | none => acc) acc := by
    intro l
    induction l with
    | nil => intro acc h; simp at h
    | cons f rest ih =>
      intro acc hmem'
      rcases List.mem_cons.mp hmem' with hf | hrest
      · rw [List.foldl_cons, ← hf, hvs]
        exact Finset.Subset.trans Finset.subset_union_right (hgrow rest _)
      · rw [List.foldl_cons]
        exact ih _ hrest
  exact hstep data.facets ∅ hmem

theorem roleFacets_subset_present {cov : FacetCoverage} {data : CoverageData}
    {fl : List (Finset ℕ)} (h : roleFacets cov data = some fl) :
    ∀ F ∈ fl, F ⊆ presentFacetIds data := by
  intro F hF
  unfold roleFacets at h
  rw [Option.map_eq_some'] at h
  obtain ⟨lst, hlst, rfl⟩ := h
  have hsF : some F ∈ lst := List.reduceOption_mem_iff.mp hF
  obtain ⟨facet, hfmem, hstep⟩ := mapM_some_mem _ _ _ hlst (some F) hsF
  by_cases hcat : facet.facet_type = "FacetType.CATEGORICAL"
  · rw [if_pos hcat] at hstep
    split at hstep
    · exact absurd hstep (by simp)
    · rename_i cvg hcv
      by_cases hin : cvg.contains cov
      · rw [if_pos hin] at hstep
        split at hstep
        · exact absurd hstep (by simp)
        · rename_i vs hvs
          obtain rfl : vs.toFinset = F :=
            Option.some_injective _ (Option.some_injective _ hstep)
          exact presentFacetIds_subset hfmem hvs
      · rw [if_neg hin] at hstep
        exact absurd hstep (by simp)
  · rw [if_neg hcat] at hstep
    exact absurd hstep (by simp)

theorem inter_disc_eq_inter_requested {filters : Filter} {data : CoverageData}
    {F : Finset ℕ} (hsub : F ⊆ presentFacetIds data) :
    F ∩ discFacets filters data = F ∩ filters.categorical_facets := by
  unfold discFacets
  ext a
  simp only [Finset.mem_inter]
  exact ⟨fun h => ⟨h.1, h.2.2⟩, fun h => ⟨h.1, hsub h.1, h.2⟩⟩

theorem catPassOf_characterization {filters : Filter} {data : CoverageData}
    {fl : List (Finset ℕ)} (hsub : ∀ F ∈ fl, F ⊆ presentFacetIds data)
    (hne : discFacets filters data ≠ ∅) (o : ObservationData) :
    (catPassOf filters data fl o = true ↔
      ∀ F ∈ fl, (F ∩ filters.categorical_facets).Nonempty →
        ¬ Disjoint o.facet_ids.toFinset (F ∩ filters.categorical_facets)) := by
  unfold catPassOf catPass skipDiscOf selectedFacets facetsWithSelections
  rw [decide_eq_false hne]
  rw [Bool.false_or]
  rw [List.all_eq_true]
  constructor
  · intro h F hF hnonempty
    have hkey := @inter_disc_eq_inter_requested filters data F (hsub F hF)
    have hfilter : F ∈ fl.filter (fun f => !decide (f ∩ discFacets filters data = ∅)) := by
      rw [List.mem_filter]
      refine ⟨hF, ?_⟩
      simp only [Bool.not_eq_eq_eq_not, Bool.not_true, decide_eq_false_iff_not]
      rw [hkey]
      exact Finset.nonempty_iff_ne_empty.mp hnonempty
    have hall := h (F ∩ discFacets filters data)
      (List.mem_map.mpr ⟨F, hfilter, rfl⟩)
    rw [hkey] at hall
    rw [Bool.not_eq_true'] at hall
    intro hdisj
    rw [(isDisjointSel_iff _ _).mpr hdisj] at hall
    exact absurd hall (by simp)
  · intro h sf hsf
    obtain ⟨F, hFf, rfl⟩ := List.mem_map.mp hsf
    rw [List.mem_filter] at hFf
    obtain ⟨hF, hne'⟩ := hFf
    have hkey := @inter_disc_eq_inter_requested filters data F (hsub F hF)
    simp only [Bool.not_eq_eq_eq_not, Bool.not_true, decide_eq_false_iff_not] at hne'
    have hnonempty : (F ∩ filters.categorical_facets).Nonempty := by
      rw [← hkey]
      exact Finset.nonempty_iff_ne_empty.mpr hne'
    have hnd := h F hF hnonempty
    show (! (isDisjointSel o.facet_ids (F ∩ discFacets filters data))) = true
    rw [hkey, Bool.not_eq_true']
    exact Bool.eq_false_iff.mpr (fun htrue => hnd ((isDisjointSel_iff _ _).mp htrue))

/-- C1: the categorical test of `filter_coverage_data`, for both roles.  When
the intersection of the requested categorical facet-value ids with those
present in the catalog is empty, every observation passes unconditionally;
otherwise an observation passes exactly when, for every categorical facet
definition of the matching role whose value-id set meets the requested set
(an "active facet"), the observation's own facet-value-id list is not
disjoint from that facet's selected subset. -/
theorem C1_categorical_test (filters : Filter) (data : CoverageData)
    (sfAll tfAll : List (Finset ℕ))
    (hsf : roleFacets FacetCoverage.Source data = some sfAll)
    (htf : roleFacets FacetCoverage.Target data = some tfAll)
    (o : ObservationData) :
    (discFacets filters data = ∅ →
      catPassOf filters data sfAll o = true ∧
      catPassOf filters data tfAll o = true) ∧
    (discFacets filters data ≠ ∅ →
      (catPassOf filters data sfAll o = true ↔
        ∀ F ∈ sfAll, (F ∩ filters.categorical_facets).Nonempty →
          ¬ Disjoint o.facet_ids.toFinset (F ∩ filters.categorical_facets)) ∧
      (catPassOf filters data tfAll o = true ↔
        ∀ F ∈ tfAll, (F ∩ filters.categorical_facets).Nonempty →
          ¬ Disjoint o.facet_ids.toFinset (F ∩ filters.categorical_facets))) := by
  constructor
  · intro hempty
    constructor <;>
      simp [catPassOf, catPass, skipDiscOf, hempty]
  · intro hne
    exact ⟨catPassOf_characterization (roleFacets_subset_present hsf) hne o,
           catPassOf_characterization (roleFacets_subset_present htf) hne o⟩

/-- Concrete catalog for the C1 witness: one source-covering and one
target-covering categorical facet. -/
def c1Data : CoverageData :=
  ⟨[⟨"src facet", "FacetType.CATEGORICAL", some [7, 8], none, some [FacetCoverage.Source]⟩,
    ⟨"tgt facet", "FacetType.CATEGORICAL", some [9], none, some [FacetCoverage.Target]⟩],
   [], [], 10⟩

/-- Witness for C1: at a filter requesting value 7, the source facet is
active, the target facet is not, and an observation tagged 7 passes both
roles' categorical tests. -/
theorem C1_categorical_test_witness :
    roleFacets FacetCoverage.Source c1Data = some [({7, 8} : Finset ℕ)] ∧
    roleFacets FacetCoverage.Target c1Data = some [({9} : Finset ℕ)] ∧
    discFacets ⟨none, {7}, none⟩ c1Data ≠ ∅ ∧
    ((catPassOf ⟨none, {7}, none⟩ c1Data [({7, 8} : Finset ℕ)] ⟨1, [7], efFin 0, efFin 1⟩ = true ↔
        ∀ F ∈ [({7, 8} : Finset ℕ)], (F ∩ ({7} : Finset ℕ)).Nonempty →
          ¬ Disjoint ([7] : List ℕ).toFinset (F ∩ ({7} : Finset ℕ))) ∧
      (catPassOf ⟨none, {7}, none⟩ c1Data [({9} : Finset ℕ)] ⟨1, [7], efFin 0, efFin 1⟩ = true ↔
        ∀ F ∈ [({9} : Finset ℕ)], (F ∩ ({7} : Finset ℕ)).Nonempty →
          ¬ Disjoint ([7] : List ℕ).toFinset (F ∩ ({7} : Finset ℕ)))) :=
  ⟨by decide, by decide, by decide,
    (C1_categorical_test ⟨none, {7}, none⟩ c1Data [({7, 8} : Finset ℕ)]
      [({9} : Finset ℕ)] (by decide) (by decide) ⟨1, [7], efFin 0, efFin 1⟩).2
      (by decide)⟩

/-! ## Claim C3: the realized numeric interval -/

theorem foldl_min_init {α β : Type} [LinearOrder β] [OrderTop β] (f : α → β) :
    ∀ (l : List α) (init : β),
      l.foldl (fun m o => min (f o) m) init =
        min init (l.foldl (fun m o => min (f o) m) ⊤) := by
  intro l
  induction l with
  | nil => intro init; simp
  | cons x xs ih =>
    intro init
    rw [List.foldl_cons, List.foldl_cons, ih (min (f x) init), ih (min (f x) ⊤)]
    rw [min_comm (f x) init, min_comm (f x) ⊤]
    rw [← min_assoc, ← min_assoc]
    congr 1
    simp [min_comm]

theorem foldl_max_init {α β : Type} [LinearOrder β] [OrderBot β] (f : α → β) :
    ∀ (l : List α) (init : β),
      l.foldl (fun m o => max (f o) m) init =
        max init (l.foldl (fun m o => max (f o) m) ⊥) := by
  intro l
  induction l with
  | nil => intro init; simp
  | cons x xs ih =>
    intro init
    rw [List.foldl_cons, List.foldl_cons, ih (max (f x) init), ih (max (f x) ⊥)]
    rw [max_comm (f x) init, max_comm (f x) ⊥]
    rw [← max_assoc, ← max_assoc]
    congr 1
    simp [max_comm]

theorem foldl_min_le_init {α β : Type} [LinearOrder β] (f : α → β) :
    ∀ (l : List α) (init : β), l.foldl (fun m o => min (f o) m) init ≤ init := by
  intro l
  induction l with
  | nil => intro init; exact le_refl _
  | cons x xs ih =>
    intro init
    rw [List.foldl_cons]
    exact le_trans (ih _) (min_le_right _ _)

theorem foldl_init_le_max {α β : Type} [LinearOrder β] (f : α → β) :
    ∀ (l : List α) (init : β), init ≤ l.foldl (fun m o => max (f o) m) init := by
  intro l
  induction l with
  | nil => intro init; exact le_refl _
  | cons x xs ih =>
    intro init
    rw [List.foldl_cons]
    exact le_trans (le_max_right _ _) (ih _)

theorem foldl_min_le_mem {α β : Type} [LinearOrder β] (f : α → β) :
    ∀ (l : List α) (init : β), ∀ o ∈ l,
      l.foldl (fun m o => min (f o) m) init ≤ f o := by
  intro l
  induction l with
  | nil => intro init o ho; simp at ho
  | cons x xs ih =>
    intro init o ho
    rw [List.foldl_cons]
    rcases List.mem_cons.mp ho with hox | ho'
    · subst hox
      exact le_trans (foldl_min_le_init f xs _) (min_le_left _ _)
    · exact ih _ o ho'

theorem foldl_max_mem_le {α β : Type} [LinearOrder β] (f : α → β) :
    ∀ (l : List α) (init : β), ∀ o ∈ l,
      f o ≤ l.foldl (fun m o => max (f o) m) init := by
  intro l
  induction l with
  | nil => intro init o ho; simp at ho
  | cons x xs ih =>
    intro init o ho
    rw [List.foldl_cons]
    rcases List.mem_cons.mp ho with hox | ho'
    · subst hox
      exact le_trans (le_max_left _ _) (foldl_init_le_max f xs _)
    · exact ih _ o ho'

theorem foldl_min_cases {α β : Type} [LinearOrder β] (f : α → β) :
    ∀ (l : List α) (init : β),
      l.foldl (fun m o => min (f o) m) init = init ∨
        ∃ o ∈ l, l.foldl (fun m o => min (f o) m) init = f o := by
  intro l
  induction l with
  | nil => intro init; exact Or.inl rfl
  | cons x xs ih =>
    intro init
    rw [List.foldl_cons]
    rcases ih (min (f x) init) with hinit | ⟨o, ho, hfo⟩
    · rcases min_cases (f x) init with ⟨hmin, -⟩ | ⟨hmin, -⟩
      · exact Or.inr ⟨x, List.mem_cons_self _ _, by rw [hinit, hmin]⟩
      · exact Or.inl (by rw [hinit, hmin])
    · exact Or.inr ⟨o, List.mem_cons_of_mem _ ho, hfo⟩

theorem foldl_max_cases {α β : Type} [LinearOrder β] (f : α → β) :
    ∀ (l : List α) (init : β),
      l.foldl (fun m o => max (f o) m) init = init ∨
        ∃ o ∈ l, l.foldl (fun m o => max (f o) m) init = f o := by
  intro l
  induction l with
  | nil => intro init; exact Or.inl rfl
  | cons x xs ih =>
    intro init
    rw [List.foldl_cons]
    rcases ih (max (f x) init) with hinit | ⟨o, ho, hfo⟩
    · rcases max_cases (f x) init with ⟨hmax, -⟩ | ⟨hmax, -⟩
      · exact Or.inr ⟨x, List.mem_cons_self _ _, by rw [hinit, hmax]⟩
      · exact Or.inl (by rw [hinit, hmax])
    · exact Or.inr ⟨o, List.mem_cons_of_mem _ ho, hfo⟩

theorem foldl_min_map_flatten {α β γ : Type} [LinearOrder β] [OrderTop β]
    (f : α → β) (g : γ → List α) :
    ∀ (ls : List γ) (init : β),
      ls.foldl (fun m c => min ((g c).foldl (fun m o => min (f o) m) ⊤) m) init =
        ((ls.map g).flatten).foldl (fun m o => min (f o) m) init := by
  intro ls
  induction ls with
  | nil => intro init; simp
  | cons c cs ih =>
    intro init
    rw [List.foldl_cons, List.map_cons, List.flatten_cons, List.foldl_append]
    rw [ih, foldl_min_init f (g c) init, min_comm init]

theorem foldl_max_map_flatten {α β γ : Type} [LinearOrder β] [OrderBot β]
    (f : α → β) (g : γ → List α) :
    ∀ (ls : List γ) (init : β),
      ls.foldl (fun m c => max ((g c).foldl (fun m o => max (f o) m) ⊥) m) init =
        ((ls.map g).flatten).foldl (fun m o => max (f o) m) init := by
  intro ls
  induction ls with
  | nil => intro init; simp
  | cons c cs ih =>
    intro init
    rw [List.foldl_cons, List.map_cons, List.flatten_cons, List.foldl_append]
    rw [ih, foldl_max_init f (g c) init, max_comm init]

/-- The observations over which `filter_coverage_data` actually collects
numeric extrema: every observation of the catalog that passes the matching
role's categorical test, for each role that does not run the no-filtering
fast path (the fast paths never touch the extrema variables). -/
def collectedObs (filters : Filter) (data : CoverageData)
    (sfAll tfAll : List (Finset ℕ)) : List ObservationData :=
  (data.chromosomes.map (fun ch =>
    chromCatObs (roleFastOf filters data sfAll) (roleFastOf filters data tfAll)
      (catPassOf filters data sfAll) (catPassOf filters data tfAll) ch)).flatten

theorem globalExtrema_flat (lg : ℚ → ℚ) (filters : Filter) (data : CoverageData)
    (sfAll tfAll : List (Finset ℕ)) :
    globalExtrema lg filters data sfAll tfAll =
      ((collectedObs filters data sfAll tfAll).foldl
          (fun m o => min o.effect_size m) ⊤,
       (collectedObs filters data sfAll tfAll).foldl
          (fun m o => max o.effect_size m) ⊥,
       (collectedObs filters data sfAll tfAll).foldl
          (fun m o => min (obsSig lg o) m) ⊤,
       (collectedObs filters data sfAll tfAll).foldl
          (fun m o => max (obsSig lg o) m) ⊥) := by
  simp only [globalExtrema, collectedObs, chromExtrema, List.foldl_map, Prod.mk.injEq]
  refine ⟨?_, ?_, ?_, ?_⟩
  · exact foldl_min_map_flatten (fun o : ObservationData => o.effect_size) _
      data.chromosomes ⊤
  · exact foldl_max_map_flatten (fun o : ObservationData => o.effect_size) _
      data.chromosomes ⊥
  · exact foldl_min_map_flatten (fun o : ObservationData => obsSig lg o) _
      data.chromosomes ⊤
  · exact foldl_max_map_flatten (fun o : ObservationData => obsSig lg o) _
      data.chromosomes ⊥

/-- Concrete catalog for the C3 counterexample: one observation with effect
size 5. -/
def c3Data : CoverageData :=
  ⟨[], [⟨"chr1", 0, 10, [⟨1, [⟨1, [⟨100, [], efFin 5, efFin 1⟩], []⟩]⟩], []⟩],
   [100], 10⟩

/-- C3 counterexample: with a requested effect interval `[0, 1]`, the only
observation (effect size 5) passes the categorical test but fails the numeric
test, so nothing is included and no bucket is produced — yet the realized
effect interval is `(5, 5)`, not the min/max over included observations
(there are none) and not the fallback to the requested bounds `(0, 1)`. -/
theorem C3_counterexample :
    (filter_coverage_data (fun _ => 0)
        ⟨none, ∅, some ⟨(efFin 0, efFin 1), (⊥, ⊤)⟩⟩ c3Data).map
      (fun o => (o.numeric_intervals.effect,
        o.chromosomes.map (fun c =>
          (c.source_intervals.length, c.target_intervals.length)))) =
      some ((efFin 5, efFin 5), [(0, 0)]) ∧
    ((efFin 5, efFin 5) : EFloat × EFloat) ≠ (efFin 0, efFin 1) :=
  ⟨rfl, by decide⟩

/-- C3 (amended): the realized numeric interval of `filter_coverage_data` is
the elementwise min/max of effect size and of `-log10` significance over the
observations that pass the categorical test on the non-fast paths
(`collectedObs`) — the numeric test does not restrict this set — and each
component falls back to the corresponding requested (or facet-declared) bound
while still at its `±∞` sentinel, in particular when no observation was
collected.  (Stated for observations whose values are finite, so a sentinel
uniquely signals an empty collection.) -/
theorem C3_realized_interval (lg : ℚ → ℚ) (filters : Filter)
    (data : CoverageData) (out : FilteredDataIC) (esI sigI : EFloat × EFloat)
    (sfAll tfAll : List (Finset ℕ))
    (h : filter_coverage_data lg filters data = some out)
    (hes : effect_size_interval filters data = some esI)
    (hsig : sig_interval filters data = some sigI)
    (hsf : roleFacets FacetCoverage.Source data = some sfAll)
    (htf : roleFacets FacetCoverage.Target data = some tfAll)
    (hfin : ∀ o ∈ collectedObs filters data sfAll tfAll,
      o.effect_size ≠ ⊤ ∧ o.effect_size ≠ ⊥ ∧
      obsSig lg o ≠ ⊤ ∧ obsSig lg o ≠ ⊥) :
    (collectedObs filters data sfAll tfAll = [] →
      out.numeric_intervals = ⟨esI, sigI⟩) ∧
    (collectedObs filters data sfAll tfAll ≠ [] →
      (∃ o ∈ collectedObs filters data sfAll tfAll,
        out.numeric_intervals.effect.1 = o.effect_size) ∧
      (∀ o ∈ collectedObs filters data sfAll tfAll,
        out.numeric_intervals.effect.1 ≤ o.effect_size) ∧
      (∃ o ∈ collectedObs filters data sfAll tfAll,
        out.numeric_intervals.effect.2 = o.effect_size) ∧
      (∀ o ∈ collectedObs filters data sfAll tfAll,
        o.effect_size ≤ out.numeric_intervals.effect.2) ∧
      (∃ o ∈ collectedObs filters data sfAll tfAll,
        out.numeric_intervals.sig.1 = obsSig lg o) ∧
      (∀ o ∈ collectedObs filters data sfAll tfAll,
        out.numeric_intervals.sig.1 ≤ obsSig lg o) ∧
      (∃ o ∈ collectedObs filters data sfAll tfAll,
        out.numeric_intervals.sig.2 = obsSig lg o) ∧
      (∀ o ∈ collectedObs filters data sfAll tfAll,
        obsSig lg o ≤ out.numeric_intervals.sig.2)) := by
  unfold filter_coverage_data at h
  rw [hes, hsig, hsf, htf] at h
  simp only [Option.some_bind, Option.map_eq_some'] at h
  obtain ⟨chroms, -, hout⟩ := h
  have hni : out.numeric_intervals =
      realizedIntervals lg filters data esI sigI sfAll tfAll := by rw [← hout]
  rw [hni]
  unfold realizedIntervals
  rw [globalExtrema_flat]
  constructor
  · intro hempty
    rw [hempty]
    simp
  · intro hne
    obtain ⟨o0, ho0⟩ :=
      List.exists_mem_of_ne_nil (collectedObs filters data sfAll tfAll) hne
    have hminE_ne : (collectedObs filters data sfAll tfAll).foldl
        (fun m o => min o.effect_size m) ⊤ ≠ ⊤ := by
      intro htop
      have hle := foldl_min_le_mem (fun o => o.effect_size)
        (collectedObs filters data sfAll tfAll) ⊤ o0 ho0
      rw [htop] at hle
      exact (hfin o0 ho0).1 (top_le_iff.mp hle)
    have hmaxE_ne : (collectedObs filters data sfAll tfAll).foldl
        (fun m o => max o.effect_size m) ⊥ ≠ ⊥ := by
      intro hbot
      have hle := foldl_max_mem_le (fun o => o.effect_size)
        (collectedObs filters data sfAll tfAll) ⊥ o0 ho0
      rw [hbot] at hle
      exact (hfin o0 ho0).2.1 (le_bot_iff.mp hle)
    have hminS_ne : (collectedObs filters data sfAll tfAll).foldl
        (fun m o => min (obsSig lg o) m) ⊤ ≠ ⊤ := by
      intro htop
      have hle := foldl_min_le_mem (fun o => obsSig lg o)
        (collectedObs filters data sfAll tfAll) ⊤ o0 ho0
      rw [htop] at hle
      exact (hfin o0 ho0).2.2.1 (top_le_iff.mp hle)
    have hmaxS_ne : (collectedObs filters data sfAll tfAll).foldl
        (fun m o => max (obsSig lg o) m) ⊥ ≠ ⊥ := by
      intro hbot
      have hle := foldl_max_mem_le (fun o => obsSig lg o)
        (collectedObs filters data sfAll tfAll) ⊥ o0 ho0
      rw [hbot] at hle
      exact (hfin o0 ho0).2.2.2 (le_bot_iff.mp hle)
    simp only [if_neg hminE_ne, if_neg hmaxE_ne, if_neg hminS_ne, if_neg hmaxS_ne]
    refine ⟨?_, ?_, ?_, ?_, ?_, ?_, ?_, ?_⟩
    · rcases foldl_min_cases (fun o => o.effect_size)
        (collectedObs filters data sfAll tfAll) ⊤ with hc | ⟨o, ho, hc⟩
      · exact absurd hc hminE_ne
      · exact ⟨o, ho, hc⟩
    · exact fun o ho => foldl_min_le_mem (fun o => o.effect_size) _ ⊤ o ho
    · rcases foldl_max_cases (fun o => o.effect_size)
        (collectedObs filters data sfAll tfAll) ⊥ with hc | ⟨o, ho, hc⟩
      · exact absurd hc hmaxE_ne
      · exact ⟨o, ho, hc⟩
    · exact fun o ho => foldl_max_mem_le (fun o => o.effect_size) _ ⊥ o ho
    · rcases foldl_min_cases (fun o => obsSig lg o)
        (collectedObs filters data sfAll tfAll) ⊤ with hc | ⟨o, ho, hc⟩
      · exact absurd hc hminS_ne
      · exact ⟨o, ho, hc⟩
    · exact fun o ho => foldl_min_le_mem (fun o => obsSig lg o) _ ⊤ o ho
    · rcases foldl_max_cases (fun o => obsSig lg o)
        (collectedObs filters data sfAll tfAll) ⊥ with hc | ⟨o, ho, hc⟩
      · exact absurd hc hmaxS_ne
      · exact ⟨o, ho, hc⟩
    · exact fun o ho => foldl_max_mem_le (fun o => obsSig lg o) _ ⊥ o ho

/-- Concrete witness filter for C3: explicit numeric intervals. -/
def c3wFilter : Filter := ⟨none, ∅, some ⟨(efFin (-10), efFin 10), (⊥, ⊤)⟩⟩

/-- Concrete witness catalog for C3: one observation, effect 1,
significance 1. -/
def c3wData : CoverageData :=
  ⟨[], [⟨"chr1", 0, 10, [⟨1, [⟨1, [⟨100, [], efFin 1, efFin 1⟩], []⟩]⟩], []⟩],
   [100], 10⟩

/-- Witness for C3 at a concrete catalog and filter (the output is named
through `Option.getD`). -/
theorem C3_realized_interval_witness :
    collectedObs c3wFilter c3wData [] [] ≠ [] ∧
    ∃ o ∈ collectedObs c3wFilter c3wData [] [],
      ((filter_coverage_data (fun _ => 0) c3wFilter c3wData).getD
          ⟨[], ⟨(⊥, ⊥), (⊥, ⊥)⟩, (0, 0, 0)⟩).numeric_intervals.effect.1 =
        o.effect_size := by
  have hs : (filter_coverage_data (fun _ => 0) c3wFilter c3wData).isSome = true := rfl
  have h : filter_coverage_data (fun _ => 0) c3wFilter c3wData =
      some ((filter_coverage_data (fun _ => 0) c3wFilter c3wData).getD
        ⟨[], ⟨(⊥, ⊥), (⊥, ⊥)⟩, (0, 0, 0)⟩) := by
    cases hx : filter_coverage_data (fun _ => 0) c3wFilter c3wData with
    | none => rw [hx] at hs; simp at hs
    | some a => simp
  exact ⟨by decide,
    ((C3_realized_interval (fun _ => 0) c3wFilter c3wData _
        (efFin (-10), efFin 10) (⊥, ⊤) [] [] h rfl rfl rfl rfl (by decide)).2
      (by decide)).1⟩

/-! ## Claim C7: merge associativity -/

/-- The per-name result of `merge_chromosomes` on a multi-input list: the
first input chromosome found for the name, with every later one merged in by
the pairwise merge (or the default chromosome when no input has the name). -/
def chromMergeList (rd : List FilteredData) (n : String) : FilteredChromosome :=
  match rd.filterMap (fun d => d.chromosomes.find? (fun c => c.chrom = n)) with
  | [] => defaultChrom n
  | c :: cs => cs.foldl mergeChromPair c

theorem foldl_mergeStep_covered (n : String) :
    ∀ (rd : List FilteredData) (acc : FilteredChromosome) (covered : List String),
      n ∈ covered →
      rd.foldl (mergeStepData n) (acc, covered) =
        ((rd.filterMap (fun d => d.chromosomes.find? (fun c => c.chrom = n))).foldl
          mergeChromPair acc, covered) := by
  intro rd
  induction rd with
  | nil => intro acc covered _; rfl
  | cons d rest ih =>
    intro acc covered h
    rw [List.foldl_cons, List.filterMap_cons]
    cases hf : d.chromosomes.find? (fun c => c.chrom = n) with
    | none =>
      have hstep : mergeStepData n (acc, covered) d = (acc, covered) := by
        unfold mergeStepData; rw [hf]
      rw [hstep]
      exact ih acc covered h
    | some fc =>
      have hchrom : fc.chrom = n := by
        have := List.find?_some hf; simpa using this
      have hstep : mergeStepData n (acc, covered) d =
          (mergeChromPair acc fc, covered) := by
        unfold mergeStepData
        rw [hf]
        simp only [hchrom]
        rw [if_pos h]
      rw [hstep, List.foldl_cons]
      exact ih _ covered h

theorem foldl_mergeStep_uncovered (n : String) :
    ∀ (rd : List FilteredData) (covered : List String), n ∉ covered →
      rd.foldl (mergeStepData n) (defaultChrom n, covered) =
        (chromMergeList rd n,
          if (rd.filterMap (fun d =>
              d.chromosomes.find? (fun c => c.chrom = n))).isEmpty then covered
          else n :: covered) := by
  intro rd
  induction rd with
  | nil => intro covered _; rfl
  | cons d rest ih =>
    intro covered h
    rw [List.foldl_cons]
    cases hf : d.chromosomes.find? (fun c => c.chrom = n) with
    | none =>
      have hstep : mergeStepData n (defaultChrom n, covered) d =
          (defaultChrom n, covered) := by
        unfold mergeStepData; rw [hf]
      rw [hstep, ih covered h]
      have hcml : chromMergeList (d :: rest) n = chromMergeList rest n := by
        unfold chromMergeList
        rw [List.filterMap_cons, hf]
      rw [hcml, List.filterMap_cons, hf]
    | some fc =>
      have hchrom : fc.chrom = n := by
        have := List.find?_some hf; simpa using this
      have hstep : mergeStepData n (defaultChrom n, covered) d =
          (fc, n :: covered) := by
        unfold mergeStepData
        rw [hf]
        simp only [hchrom]
        rw [if_neg h]
      rw [hstep,
        foldl_mergeStep_covered n rest fc (n :: covered) (List.mem_cons_self _ _)]
      have hcml : chromMergeList (d :: rest) n =
          (rest.filterMap (fun d =>
            d.chromosomes.find? (fun c => c.chrom = n))).foldl mergeChromPair fc := by
        unfold chromMergeList
        rw [List.filterMap_cons, hf]
      rw [hcml, List.filterMap_cons, hf]
      simp

theorem mergeChromosomesLoop_eq (rd : List FilteredData) :
    ∀ (names covered : List String), names.Nodup →
      (∀ m ∈ names, m ∉ covered) →
      mergeChromosomesLoop rd names covered = names.map (chromMergeList rd) := by
  intro names
  induction names with
  | nil => intro covered _ _; rfl
  | cons n rest ih =>
    intro covered hnd hdisj
    have hn : n ∉ covered := hdisj n (List.mem_cons_self _ _)
    rw [mergeChromosomesLoop]
    have hu := foldl_mergeStep_uncovered n rd covered hn
    unfold mergeChromName
    rw [hu]
    rw [List.map_cons]
    congr 1
    apply ih
    · exact (List.nodup_cons.mp hnd).2
    · intro m hm
      have hmn : m ≠ n := by
        intro heq
        exact (List.nodup_cons.mp hnd).1 (heq ▸ hm)
      have hmc : m ∉ covered := hdisj m (List.mem_cons_of_mem _ hm)
      by_cases he : (rd.filterMap (fun d =>
          d.chromosomes.find? (fun c => c.chrom = n))).isEmpty
      · rw [if_pos he]; exact hmc
      · rw [if_neg he]
        intro hmem
        rcases List.mem_cons.mp hmem with heq | hmem'
        · exact hmn heq
        · exact hmc hmem'

theorem chromMergeList_chrom (rd : List FilteredData) (n : String) :
    (chromMergeList rd n).chrom = n := by
  cases hfm : rd.filterMap (fun d =>
      d.chromosomes.find? (fun c => c.chrom = n)) with
  | nil => simp [chromMergeList, hfm, defaultChrom]
  | cons c cs =>
    have hc : c.chrom = n := by
      have hcmem : c ∈ rd.filterMap (fun d =>
          d.chromosomes.find? (fun c => c.chrom = n)) := by
        rw [hfm]; exact List.mem_cons_self _ _
      obtain ⟨d, -, hfd⟩ := List.mem_filterMap.mp hcmem
      have := List.find?_some hfd; simpa using this
    have hfold : ∀ (cs' : List FilteredChromosome) (acc : FilteredChromosome),
        (cs'.foldl mergeChromPair acc).chrom = acc.chrom := by
      intro cs'
      induction cs' with
      | nil => intro acc; rfl
      | cons x xs ihx =>
        intro acc
        rw [List.foldl_cons, ihx]
        rfl
    simp [chromMergeList, hfm, hfold, hc]

theorem find?_map_of_chrom (f : String → FilteredChromosome)
    (hf : ∀ m, (f m).chrom = m) :
    ∀ (names : List String) (n : String), n ∈ names →
      (names.map f).find? (fun c => c.chrom = n) = some (f n) := by
  intro names
  induction names with
  | nil => intro n hn; simp at hn
  | cons m rest ih =>
    intro n hn
    rw [List.map_cons]
    by_cases hmn : m = n
    · subst hmn
      rw [List.find?_cons_of_pos _ (by simp [hf m])]
    · rw [List.find?_cons_of_neg _ (by simp [hf m, hmn])]
      exact ih n ((List.mem_cons.mp hn).resolve_left (fun h => hmn h.symm))

theorem find?_of_chromNames {d : FilteredData} {names : List String} {n : String}
    (hshape : d.chromosomes.map (fun c => c.chrom) = names) (hn : n ∈ names) :
    ∃ c, d.chromosomes.find? (fun c => c.chrom = n) = some c := by
  rw [← hshape] at hn
  obtain ⟨c, hc, hcn⟩ := List.mem_map.mp hn
  have : (d.chromosomes.find? (fun c => c.chrom = n)).isSome = true := by
    rw [List.find?_isSome]
    exact ⟨c, hc, by simp [hcn]⟩
  exact Option.isSome_iff_exists.mp this

theorem mergeIntervalsStep_absorb (I a b : FilterIntervals) :
    mergeIntervalsStep I (mergeIntervalsStep (mergeIntervalsStep I a) b) =
      mergeIntervalsStep (mergeIntervalsStep I a) b := by
  have he1 : min (min I.effect.1 a.effect.1) b.effect.1 ≤ I.effect.1 :=
    le_trans (min_le_left _ _) (min_le_left _ _)
  have he2 : I.effect.2 ≤ max (max I.effect.2 a.effect.2) b.effect.2 :=
    le_trans (le_max_left _ _) (le_max_left _ _)
  have hs1 : min (min I.sig.1 a.sig.1) b.sig.1 ≤ I.sig.1 :=
    le_trans (min_le_left _ _) (min_le_left _ _)
  have hs2 : I.sig.2 ≤ max (max I.sig.2 a.sig.2) b.sig.2 :=
    le_trans (le_max_left _ _) (le_max_left _ _)
  simp [mergeIntervalsStep, min_eq_right he1, max_eq_right he2,
    min_eq_right hs1, max_eq_right hs2]

/-- C7: merge associativity for well-formed same-shape inputs.  With a
duplicate-free canonical chromosome-name list and all of `A`, `B`, `C`
carrying exactly those chromosome names, merging `[A, B, C]` equals merging
`[merge [A, B], C]`: equal chromosome interval lists, numeric intervals,
`reo_count`, bucket size and source/target id sets. -/
theorem C7_merge_associativity (A B C AB : FilteredData) (names : List String)
    (hnodup : names.Nodup)
    (hA : A.chromosomes.map (fun c => c.chrom) = names)
    (hB : B.chromosomes.map (fun c => c.chrom) = names)
    (hC : C.chromosomes.map (fun c => c.chrom) = names)
    (hAB : merge_filtered_data [A, B] names = some AB) :
    merge_filtered_data [A, B, C] names = merge_filtered_data [AB, C] names := by
  have hloop2 : merge_chromosomes [A, B] names = names.map (chromMergeList [A, B]) := by
    show mergeChromosomesLoop [A, B] names [] = _
    exact mergeChromosomesLoop_eq [A, B] names [] hnodup (by simp)
  have hABval : AB =
      { chromosomes := merge_chromosomes [A, B] names
        bucket_size := A.bucket_size
        numeric_intervals :=
          ([A, B].map (fun d => d.numeric_intervals)).foldl mergeIntervalsStep
            { effect := (f32MAX, f32MIN), sig := (f64MAX, f64MIN) }
        reo_count := ([A, B].map (fun d => d.reo_count)).sum
        sources := [A, B].foldl (fun acc f => acc ∪ f.sources) ∅
        targets := [A, B].foldl (fun acc f => acc ∪ f.targets) ∅ } := by
    have := hAB
    unfold merge_filtered_data at this
    exact (Option.some_injective _ this).symm
  have hchrom3 : merge_chromosomes [A, B, C] names =
      names.map (chromMergeList [A, B, C]) := by
    show mergeChromosomesLoop [A, B, C] names [] = _
    exact mergeChromosomesLoop_eq [A, B, C] names [] hnodup (by simp)
  have hchrom2' : merge_chromosomes [AB, C] names =
      names.map (chromMergeList [AB, C]) := by
    show mergeChromosomesLoop [AB, C] names [] = _
    exact mergeChromosomesLoop_eq [AB, C] names [] hnodup (by simp)
  have hchroms : merge_chromosomes [A, B, C] names = merge_chromosomes [AB, C] names := by
    rw [hchrom3, hchrom2']
    apply List.map_congr_left
    intro n hn
    obtain ⟨An, hfA⟩ := find?_of_chromNames hA hn
    obtain ⟨Bn, hfB⟩ := find?_of_chromNames hB hn
    obtain ⟨Cn, hfC⟩ := find?_of_chromNames hC hn
    have habn : AB.chromosomes.find? (fun c => c.chrom = n) =
        some (chromMergeList [A, B] n) := by
      have hABchroms : AB.chromosomes = names.map (chromMergeList [A, B]) := by
        rw [hABval]; exact hloop2
      rw [hABchroms]
      exact find?_map_of_chrom (chromMergeList [A, B]) (chromMergeList_chrom [A, B])
        names n hn
    have h2 : chromMergeList [A, B] n = mergeChromPair An Bn := by
      unfold chromMergeList
      rw [List.filterMap_cons, hfA, List.filterMap_cons, hfB, List.filterMap_nil]
      rfl
    have h3 : chromMergeList [A, B, C] n =
        mergeChromPair (mergeChromPair An Bn) Cn := by
      unfold chromMergeList
      rw [List.filterMap_cons, hfA, List.filterMap_cons, hfB,
        List.filterMap_cons, hfC, List.filterMap_nil]
      rfl
    have h2' : chromMergeList [AB, C] n =
        mergeChromPair (chromMergeList [A, B] n) Cn := by
      unfold chromMergeList
      rw [List.filterMap_cons, habn, List.filterMap_cons, hfC, List.filterMap_nil]
      rfl
    rw [h3, h2', h2]
  unfold merge_filtered_data
  refine congrArg some ?_
  simp only [FilteredData.mk.injEq]
  refine ⟨hchroms, ?_, ?_, ?_, ?_, ?_⟩
  · rw [hABval]
  · simp only [List.map_cons, List.map_nil, List.foldl_cons, List.foldl_nil]
    rw [hABval]
    simp only [List.map_cons, List.map_nil, List.foldl_cons, List.foldl_nil]
    rw [mergeIntervalsStep_absorb]
  · rw [hABval]
    simp [Nat.add_assoc]
  · simp only [List.foldl_cons, List.foldl_nil]
    rw [hABval]
    simp only [List.foldl_cons, List.foldl_nil, Finset.empty_union]
  · simp only [List.foldl_cons, List.foldl_nil]
    rw [hABval]
    simp only [List.foldl_cons, List.foldl_nil, Finset.empty_union]

/-- First concrete merge input for the C7 witness. -/
def c7A : FilteredData :=
  ⟨[⟨"c", 0, 10, [], [⟨1, 2, [3], efFin 1, efFin (-2)⟩]⟩],
   10, ⟨(efFin 0, efFin 1), (efFin 0, efFin 1)⟩, 2, {1}, {2}⟩

/-- Second concrete merge input for the C7 witness. -/
def c7B : FilteredData :=
  ⟨[⟨"c", 0, 10, [⟨2, 1, [], efFin 3, efFin 0⟩], [⟨1, 3, [5], efFin 9, efFin 5⟩]⟩],
   10, ⟨(efFin (-3), efFin 0), (efFin 1, efFin 4)⟩, 3, {1, 4}, {7}⟩

/-- Third concrete merge input for the C7 witness. -/
def c7C : FilteredData :=
  ⟨[⟨"c", 0, 10, [], [⟨4, 1, [], efFin 0, efFin 0⟩]⟩],
   10, ⟨(efFin 2, efFin 6), (efFin (-1), efFin 0)⟩, 1, {9}, ∅⟩

/-- Witness for C7 at three concrete inputs (the two-way merge is named
through `Option.getD`). -/
theorem C7_merge_associativity_witness :
    (["c"] : List String).Nodup ∧
    c7A.chromosomes.map (fun c => c.chrom) = ["c"] ∧
    c7B.chromosomes.map (fun c => c.chrom) = ["c"] ∧
    c7C.chromosomes.map (fun c => c.chrom) = ["c"] ∧
    merge_filtered_data [c7A, c7B, c7C] ["c"] =
      merge_filtered_data
        [(merge_filtered_data [c7A, c7B] ["c"]).getD
            ⟨[], 0, ⟨(⊥, ⊤), (⊥, ⊤)⟩, 0, ∅, ∅⟩, c7C] ["c"] := by
  have hs : (merge_filtered_data [c7A, c7B] ["c"]).isSome = true := rfl
  have hAB : merge_filtered_data [c7A, c7B] ["c"] =
      some ((merge_filtered_data [c7A, c7B] ["c"]).getD
        ⟨[], 0, ⟨(⊥, ⊤), (⊥, ⊤)⟩, 0, ∅, ∅⟩) := by
    cases hx : merge_filtered_data [c7A, c7B] ["c"] with
    | none => rw [hx] at hs; simp at hs
    | some a => simp
  exact ⟨by decide, by decide, by decide, by decide,
    C7_merge_associativity c7A c7B c7C _ ["c"] (by decide)
      (by decide) (by decide) (by decide) hAB⟩

end ExpViz
